import Mathlib

/-!
Verification of the assessment-set builder in `app/ai_service.py` (cvp-lite).

The Python functions under scrutiny operate on untyped JSON-like values
(dictionaries, lists, strings, numbers, `None`).  We shallowly embed that
value universe as the inductive type `Val`, Python dictionaries as
association lists `Obj := List (String × Val)` (Python dictionaries have
unique keys; lookups return the first binding), and each method of
`AIService` as a Lean function over these types:

* `extract_riasec_primary`       ↦ `AIService._extract_riasec_primary`
* `normalize_step1_questions`    ↦ `AIService._normalize_step1_questions`
* `resequence_question_ids`      ↦ `AIService._resequence_question_ids`
* `sanitize_options`             ↦ `AIService._sanitize_options`
* `fallback_by_riasec`           ↦ `AIService._fallback_by_riasec`
* `enforce_riasec_distribution`  ↦ `AIService._enforce_riasec_distribution`

Unbounded `while` loops of the source (fresh-id generation, top-up) are
rendered with an explicit fuel argument; the chosen fuel is proved
sufficient (pigeonhole), so the fuel-exhaustion branch is unreachable at
every use site that the theorems below depend on.
-/

/-- A Python/JSON-like runtime value: the value universe the question
pipeline manipulates. -/
inductive Val where
  | none : Val
  | bool : Bool → Val
  | int : Int → Val
  | str : String → Val
  | list : List Val → Val
  | dict : List (String × Val) → Val

/-- A Python dictionary with string keys, as an association list
(first binding wins on lookup; Python dictionaries keep insertion order). -/
abbrev Obj : Type := List (String × Val)

mutual
/-- Structural equality on `Val` (Python `==` on JSON-like data). -/
def valBeq : Val → Val → Bool
  | .none, .none => true
  | .bool x, .bool y => x == y
  | .int x, .int y => x == y
  | .str x, .str y => x == y
  | .list xs, .list ys => valListBeq xs ys
  | .dict xs, .dict ys => valObjBeq xs ys
  | _, _ => false
def valListBeq : List Val → List Val → Bool
  | [], [] => true
  | x :: xs, y :: ys => valBeq x y && valListBeq xs ys
  | _, _ => false
def valObjBeq : List (String × Val) → List (String × Val) → Bool
  | [], [] => true
  | (k1, v1) :: xs, (k2, v2) :: ys => k1 == k2 && valBeq v1 v2 && valObjBeq xs ys
  | _, _ => false
end

theorem valListBeq_iff (xs : List Val)
    (h : ∀ x ∈ xs, ∀ b, valBeq x b = true ↔ x = b) :
    ∀ ys, valListBeq xs ys = true ↔ xs = ys := by
  induction xs with
  | nil => intro ys; cases ys <;> simp [valListBeq]
  | cons x xs ih =>
    intro ys
    cases ys with
    | nil => simp [valListBeq]
    | cons y ys =>
      have hx := h x (by simp) y
      have hrest := ih (fun z hz b => h z (by simp [hz]) b) ys
      simp [valListBeq, hx, hrest]

theorem valObjBeq_iff (xs : List (String × Val))
    (h : ∀ p ∈ xs, ∀ b, valBeq p.2 b = true ↔ p.2 = b) :
    ∀ ys, valObjBeq xs ys = true ↔ xs = ys := by
  induction xs with
  | nil => intro ys; cases ys <;> simp [valObjBeq]
  | cons p xs ih =>
    intro ys
    obtain ⟨k1, v1⟩ := p
    cases ys with
    | nil => simp [valObjBeq]
    | cons q ys =>
      obtain ⟨k2, v2⟩ := q
      have hv := h (k1, v1) (by simp) v2
      simp only at hv
      have hrest := ih (fun z hz b => h z (by simp [hz]) b) ys
      simp [valObjBeq, hv, hrest, Prod.ext_iff, and_assoc]

theorem valBeq_iff : ∀ a b : Val, valBeq a b = true ↔ a = b := by
  have main : ∀ n : Nat, ∀ a b : Val, sizeOf a ≤ n → (valBeq a b = true ↔ a = b) := by
    intro n
    induction n with
    | zero =>
      intro a b ha
      exfalso
      cases a <;> simp at ha
    | succ n ih =>
      intro a b ha
      cases a with
      | none => cases b <;> simp [valBeq]
      | bool x => cases b <;> simp [valBeq]
      | int x => cases b <;> simp [valBeq]
      | str x => cases b <;> simp [valBeq]
      | list xs =>
        have key : ∀ ys, valListBeq xs ys = true ↔ xs = ys := by
          refine valListBeq_iff xs (fun x hx b => ?_)
          refine ih x b ?_
          have h1 : sizeOf x < sizeOf xs := List.sizeOf_lt_of_mem hx
          have h2 : sizeOf (Val.list xs) = 1 + sizeOf xs := by simp
          omega
        cases b <;> simp [valBeq, key]
      | dict xs =>
        have key : ∀ ys, valObjBeq xs ys = true ↔ xs = ys := by
          refine valObjBeq_iff xs (fun p hp b => ?_)
          refine ih p.2 b ?_
          have h1 : sizeOf p < sizeOf xs := List.sizeOf_lt_of_mem hp
          have h2 : sizeOf (Val.dict xs) = 1 + sizeOf xs := by simp
          have h3 : sizeOf p.2 < sizeOf p := by
            obtain ⟨k, v⟩ := p
            simp only [Prod.mk.sizeOf_spec]
            omega
          omega
        cases b <;> simp [valBeq, key]
  exact fun a b => main (sizeOf a) a b le_rfl

instance : DecidableEq Val := fun a b => decidable_of_iff _ (valBeq_iff a b)

/-! ### Python semantics helpers -/

/-- Python truthiness, `bool(v)`. -/
def truthy : Val → Bool
  | .none => false
  | .bool b => b
  | .int n => decide (n ≠ 0)
  | .str s => decide (s ≠ "")
  | .list xs => decide (xs ≠ [])
  | .dict o => decide (o ≠ [])

/-- Python `a or b` (returns the first operand when truthy, else the second). -/
def pyOr (a b : Val) : Val := if truthy a then a else b

/-- Decimal digits of a natural number.  Fuel-based so that the kernel can
reduce it; `natDecimalAux (n + 1) n` always has enough fuel
(see `natDecimalAux_eval`). -/
def natDecimalAux : Nat → Nat → List Char
  | 0, _ => []
  | fuel+1, n =>
    if n < 10 then [Nat.digitChar n]
    else natDecimalAux fuel (n / 10) ++ [Nat.digitChar (n % 10)]

/-- Decimal representation of a natural number, as produced by Python `str`
or f-string interpolation of a nonnegative integer. -/
def natDecimal (n : Nat) : String := String.mk (natDecimalAux (n + 1) n)

/-- Numeric value of a decimal digit character. -/
def digitVal (c : Char) : Nat := c.toNat - 48

/-- Numeric value of a list of decimal digit characters. -/
def digitsVal (l : List Char) : Nat := l.foldl (fun acc c => acc * 10 + digitVal c) 0

theorem digitsVal_append_singleton (l : List Char) (c : Char) :
    digitsVal (l ++ [c]) = digitsVal l * 10 + digitVal c := by
  simp [digitsVal, List.foldl_append]

theorem digitVal_digitChar : ∀ k, k < 10 → digitVal (Nat.digitChar k) = k := by decide

theorem natDecimalAux_eval : ∀ fuel n, n < fuel → digitsVal (natDecimalAux fuel n) = n := by
  intro fuel
  induction fuel with
  | zero => omega
  | succ fuel ih =>
    intro n hn
    by_cases h : n < 10
    · simp [natDecimalAux, h, digitsVal, digitVal_digitChar n h]
    · have hdiv : n / 10 < fuel := by omega
      simp only [natDecimalAux, if_neg h, digitsVal_append_singleton, ih _ hdiv,
        digitVal_digitChar (n % 10) (by omega)]
      omega

theorem natDecimal_injective : Function.Injective natDecimal := by
  intro a b h
  have hd : natDecimalAux (a + 1) a = natDecimalAux (b + 1) b := congrArg String.data h
  have := congrArg digitsVal hd
  rwa [natDecimalAux_eval _ _ (Nat.lt_succ_self a),
    natDecimalAux_eval _ _ (Nat.lt_succ_self b)] at this

theorem natDecimalAux_ne_nil (n : Nat) : natDecimalAux (n + 1) n ≠ [] := by
  by_cases h : n < 10 <;> simp [natDecimalAux, h]

theorem natDecimal_ne_empty (n : Nat) : natDecimal n ≠ "" := by
  intro h
  exact natDecimalAux_ne_nil n (congrArg String.data h)

theorem string_append_right_injective (s : String) :
    Function.Injective (fun t => s ++ t) := by
  intro a b h
  have hd : s.data ++ a.data = s.data ++ b.data := congrArg String.data h
  exact String.ext (List.append_cancel_left hd)

theorem string_append_left_ne_empty (s t : String) (hs : s ≠ "") : s ++ t ≠ "" := by
  intro h
  have hd : s.data ++ t.data = [] := congrArg String.data h
  rcases List.append_eq_nil.mp hd with ⟨h1, _⟩
  exact hs (congrArg String.mk h1)

/-- The whitespace characters stripped by Python `str.strip()` (ASCII part). -/
def isPySpace (c : Char) : Bool :=
  decide (c = ' ' ∨ c = '\t' ∨ c = '\n' ∨ c = '\r' ∨ c = '\x0b' ∨ c = '\x0c')

/-- Remove leading and trailing whitespace from a character list. -/
def stripList (l : List Char) : List Char :=
  ((l.dropWhile isPySpace).reverse.dropWhile isPySpace).reverse

/-- Python `str.strip()`. -/
def pyStrip (s : String) : String := String.mk (stripList s.data)

theorem dropWhile_head_not (p : Char → Bool) :
    ∀ (l : List Char) (a : Char), (l.dropWhile p).head? = some a → p a = false := by
  intro l
  induction l with
  | nil => simp
  | cons x xs ih =>
    intro a
    by_cases h : p x
    · simpa [List.dropWhile, h] using ih a
    · simp [List.dropWhile, h]
      rintro rfl
      simpa using h

theorem dropWhile_eq_self_of_head (p : Char → Bool) (l : List Char)
    (h : ∀ a, l.head? = some a → p a = false) : l.dropWhile p = l := by
  cases l with
  | nil => rfl
  | cons x xs => simp [List.dropWhile, h x rfl]

theorem mem_dropWhile_of_not (p : Char → Bool) :
    ∀ (l : List Char) (c : Char), c ∈ l → p c = false → c ∈ l.dropWhile p := by
  intro l
  induction l with
  | nil => simp
  | cons x xs ih =>
    intro c hc hpc
    by_cases h : p x
    · rcases List.mem_cons.mp hc with rfl | hmem
      · rw [h] at hpc; cases hpc
      · simpa [List.dropWhile, h] using ih c hmem hpc
    · simpa [List.dropWhile, h] using hc

theorem getLast?_of_suffix {l1 l2 : List Char} (h : l1 <:+ l2) (hne : l1 ≠ []) :
    l1.getLast? = l2.getLast? := by
  obtain ⟨t, rfl⟩ := h
  rw [List.getLast?_append_of_ne_nil _ hne]

theorem stripList_idem (l : List Char) : stripList (stripList l) = stripList l := by
  set p := isPySpace with hp
  set s1 := l.dropWhile p with hs1
  set s2 := s1.reverse.dropWhile p with hs2
  have hhead1 : ∀ a, s1.head? = some a → p a = false := fun a ha => dropWhile_head_not p l a ha
  have hhead2 : ∀ a, s2.head? = some a → p a = false := fun a ha =>
    dropWhile_head_not p s1.reverse a ha
  have hstrip : stripList l = s2.reverse := rfl
  have hdrop1 : s2.reverse.dropWhile p = s2.reverse := by
    refine dropWhile_eq_self_of_head p _ (fun a ha => ?_)
    rw [List.head?_reverse] at ha
    have hne : s2 ≠ [] := by
      intro h0; rw [h0] at ha; simp at ha
    have hsuffix : s2 <:+ s1.reverse := by
      rw [hs2]; exact List.dropWhile_suffix p
    have := getLast?_of_suffix hsuffix hne
    rw [this, List.getLast?_reverse] at ha
    exact hhead1 a ha
  have hdrop2 : s2.reverse.reverse.dropWhile p = s2 := by
    rw [List.reverse_reverse]
    exact dropWhile_eq_self_of_head p s2 hhead2
  rw [hstrip]
  show ((s2.reverse.dropWhile p).reverse.dropWhile p).reverse = s2.reverse
  rw [hdrop1, hdrop2]

theorem pyStrip_idem (s : String) : pyStrip (pyStrip s) = pyStrip s :=
  congrArg String.mk (stripList_idem s.data)

theorem stripList_ne_nil_of_mem {l : List Char} {c : Char} (hc : c ∈ l)
    (hpc : isPySpace c = false) : stripList l ≠ [] := by
  intro h0
  have h1 : c ∈ l.dropWhile isPySpace := mem_dropWhile_of_not _ l c hc hpc
  have h2 : c ∈ (l.dropWhile isPySpace).reverse := List.mem_reverse.mpr h1
  have h3 : c ∈ (l.dropWhile isPySpace).reverse.dropWhile isPySpace :=
    mem_dropWhile_of_not _ _ c h2 hpc
  have h4 : (l.dropWhile isPySpace).reverse.dropWhile isPySpace = [] := by
    have := congrArg List.reverse h0
    simpa [stripList] using this
  rw [h4] at h3
  cases h3

theorem pyStrip_ne_empty_of_mem {s : String} {c : Char} (hc : c ∈ s.data)
    (hpc : isPySpace c = false) : pyStrip s ≠ "" := by
  intro h
  exact stripList_ne_nil_of_mem hc hpc (congrArg String.data h)

mutual
/-- Python `repr` for JSON-like values (string-escaping inside containers is
not modelled character-by-character; no theorem below depends on it). -/
def pyRepr : Val → String
  | .none => "None"
  | .bool b => if b then "True" else "False"
  | .int n => if n < 0 then "-" ++ natDecimal n.natAbs else natDecimal n.natAbs
  | .str s => "\x27" ++ s ++ "\x27"
  | .list xs => "[" ++ pyReprList xs ++ "]"
  | .dict kvs => "\x7b" ++ pyReprObj kvs ++ "\x7d"
def pyReprList : List Val → String
  | [] => ""
  | [v] => pyRepr v
  | v :: rest => pyRepr v ++ ", " ++ pyReprList rest
def pyReprObj : List (String × Val) → String
  | [] => ""
  | [(k, v)] => "\x27" ++ k ++ "\x27: " ++ pyRepr v
  | (k, v) :: rest => "\x27" ++ k ++ "\x27: " ++ pyRepr v ++ ", " ++ pyReprObj rest
end

/-- Python `str(v)`: identity on strings, `repr` otherwise. -/
def pyStr : Val → String
  | .str s => s
  | v => pyRepr v

/-! ### Dictionary operations -/

/-- `o.get(k)` as an `Option` (`none` when the key is absent). -/
def objGetOpt (o : Obj) (k : String) : Option Val :=
  (o.find? (fun p => p.1 == k)).map (fun p => p.2)

/-- Python `o.get(k)`: the value bound to `k`, or `None` when absent. -/
def objGet (o : Obj) (k : String) : Val := (objGetOpt o k).getD .none

/-- Python `o.get(k, d)`. -/
def objGetD (o : Obj) (k : String) (d : Val) : Val := (objGetOpt o k).getD d

/-- Python `{**o, k: v}` (also `o[k] = v`): replace the binding of `k` in
place, or append it when absent. -/
def objInsert : Obj → String → Val → Obj
  | [], k, v => [(k, v)]
  | (k1, v1) :: rest, k, v =>
    if k1 = k then (k, v) :: rest else (k1, v1) :: objInsert rest k v

/-- Python `o.pop(k, None)`: remove the binding of `k` if present. -/
def objErase : Obj → String → Obj
  | [], _ => []
  | (k1, v1) :: rest, k => if k1 = k then rest else (k1, v1) :: objErase rest k

theorem objGetOpt_cons_self (k : String) (v : Val) (rest : Obj) :
    objGetOpt ((k, v) :: rest) k = some v := by
  simp [objGetOpt, List.find?]

theorem objGetOpt_cons_ne (k k' : String) (v : Val) (rest : Obj) (h : k' ≠ k) :
    objGetOpt ((k, v) :: rest) k' = objGetOpt rest k' := by
  have e : (k == k') = false := beq_eq_false_iff_ne.mpr (Ne.symm h)
  simp [objGetOpt, List.find?, e]

theorem objGetOpt_objInsert_self (o : Obj) (k : String) (v : Val) :
    objGetOpt (objInsert o k v) k = some v := by
  induction o with
  | nil => simp [objInsert, objGetOpt, List.find?]
  | cons p rest ih =>
    obtain ⟨k1, v1⟩ := p
    by_cases h : k1 = k
    · simp [objInsert, h, objGetOpt_cons_self]
    · rw [objInsert, if_neg h, objGetOpt_cons_ne _ _ _ _ (fun hk => h hk.symm)]
      exact ih

theorem objGetOpt_objInsert_ne (o : Obj) (k k' : String) (v : Val) (h : k' ≠ k) :
    objGetOpt (objInsert o k v) k' = objGetOpt o k' := by
  induction o with
  | nil => rw [show objInsert [] k v = [(k, v)] from rfl, objGetOpt_cons_ne _ _ _ _ h]
  | cons p rest ih =>
    obtain ⟨k1, v1⟩ := p
    by_cases h1 : k1 = k
    · subst h1
      rw [objInsert, if_pos rfl, objGetOpt_cons_ne _ _ _ _ h, objGetOpt_cons_ne _ _ _ _ h]
    · rw [objInsert, if_neg h1]
      by_cases h2 : k' = k1
      · subst h2
        rw [objGetOpt_cons_self, objGetOpt_cons_self]
      · rw [objGetOpt_cons_ne _ _ _ _ h2, objGetOpt_cons_ne _ _ _ _ h2]
        exact ih

theorem objGetOpt_objErase_ne (o : Obj) (k k' : String) (h : k' ≠ k) :
    objGetOpt (objErase o k) k' = objGetOpt o k' := by
  induction o with
  | nil => rfl
  | cons p rest ih =>
    obtain ⟨k1, v1⟩ := p
    by_cases h1 : k1 = k
    · subst h1
      rw [objErase, if_pos rfl, objGetOpt_cons_ne _ _ _ _ h]
    · rw [objErase, if_neg h1]
      by_cases h2 : k' = k1
      · subst h2
        rw [objGetOpt_cons_self, objGetOpt_cons_self]
      · rw [objGetOpt_cons_ne _ _ _ _ h2, objGetOpt_cons_ne _ _ _ _ h2]
        exact ih


/-! ### Fresh-identifier generation -/

theorem nodup_subset_length {α : Type} [DecidableEq α] {l l' : List α}
    (hd : l.Nodup) (hs : l ⊆ l') : l.length ≤ l'.length :=
  (List.subperm_of_subset hd hs).length_le

theorem exists_fresh_index {α : Type} [DecidableEq α] (f : Nat → α)
    (hf : Function.Injective f) (used : List α) :
    ∃ k, k ≤ used.length ∧ f k ∉ used := by
  by_contra hcon
  push_neg at hcon
  have hmem : ∀ x ∈ (List.range (used.length + 1)).map f, x ∈ used := by
    intro x hx
    obtain ⟨k, hk, rfl⟩ := List.mem_map.mp hx
    exact hcon k (Nat.lt_succ_iff.mp (List.mem_range.mp hk))
  have hnd : ((List.range (used.length + 1)).map f).Nodup :=
    List.Nodup.map hf (List.nodup_range _)
  have hlen := nodup_subset_length hnd hmem
  simp at hlen

/-- One pass of the id-regeneration loop in `_normalize_step1_questions`:
`while True: qid = f"q{counter}"; counter += 1; if qid not in seen_ids: break`.
Fuel-based rendering of the `while`; `freshQ` supplies fuel
`seen.length + 1`, which `freshQ_fresh` proves sufficient, so the
fuel-exhaustion branch is unreachable. -/
def freshQAux : Nat → Nat → List String → String × Nat
  | 0, counter, _ => ("q" ++ natDecimal counter, counter + 1)
  | fuel+1, counter, seen =>
    if ("q" ++ natDecimal counter) ∈ seen then freshQAux fuel (counter + 1) seen
    else ("q" ++ natDecimal counter, counter + 1)

def freshQ (counter : Nat) (seen : List String) : String × Nat :=
  freshQAux (seen.length + 1) counter seen

theorem freshQAux_not_mem :
    ∀ fuel counter seen, (∃ j, j ≤ fuel ∧ ("q" ++ natDecimal (counter + j)) ∉ seen) →
      (freshQAux fuel counter seen).1 ∉ seen := by
  intro fuel
  induction fuel with
  | zero =>
    intro counter seen ⟨j, hj, hnot⟩
    interval_cases j
    simpa [freshQAux] using hnot
  | succ fuel ih =>
    intro counter seen ⟨j, hj, hnot⟩
    by_cases hq : ("q" ++ natDecimal counter) ∈ seen
    · rw [freshQAux, if_pos hq]
      refine ih (counter + 1) seen ?_
      match j, hj with
      | 0, _ => exact absurd hq (by simpa using hnot)
      | j'+1, hj => exact ⟨j', by omega, by rw [show counter + 1 + j' = counter + (j' + 1) by omega]; exact hnot⟩
    · rw [freshQAux, if_neg hq]
      exact hq

theorem qid_injective (base : Nat) :
    Function.Injective (fun j : Nat => "q" ++ natDecimal (base + j)) := by
  intro a b h
  have h1 := string_append_right_injective "q" h
  have h2 := natDecimal_injective h1
  omega

theorem freshQ_fresh (counter : Nat) (seen : List String) : (freshQ counter seen).1 ∉ seen := by
  refine freshQAux_not_mem _ counter seen ?_
  obtain ⟨k, hk, hfresh⟩ := exists_fresh_index _ (qid_injective counter) seen
  exact ⟨k, by omega, hfresh⟩

theorem freshQAux_shape :
    ∀ fuel counter seen, ∃ m, (freshQAux fuel counter seen).1 = "q" ++ natDecimal m := by
  intro fuel
  induction fuel with
  | zero => intro counter seen; exact ⟨counter, rfl⟩
  | succ fuel ih =>
    intro counter seen
    by_cases hq : ("q" ++ natDecimal counter) ∈ seen
    · rw [freshQAux, if_pos hq]; exact ih (counter + 1) seen
    · rw [freshQAux, if_neg hq]; exact ⟨counter, rfl⟩

theorem qid_ne_empty (m : Nat) : ("q" ++ natDecimal m) ≠ "" :=
  string_append_left_ne_empty _ _ (by decide)

theorem freshQ_ne_empty (counter : Nat) (seen : List String) : (freshQ counter seen).1 ≠ "" := by
  obtain ⟨m, hm⟩ := freshQAux_shape (seen.length + 1) counter seen
  rw [freshQ, hm]
  exact qid_ne_empty m

/-- The candidate id `f"{cid}_{suffix}"` used by the duplicate-id avoidance
loop of `_enforce_riasec_distribution`. -/
def suffixId (cid : Val) (s : Nat) : Val := .str (pyStr cid ++ "_" ++ natDecimal s)

/-- The duplicate-id avoidance loop of `_enforce_riasec_distribution`:
`new_id = cid; suffix = 1; while new_id in used_ids: new_id = f"{cid}_{suffix}"; suffix += 1`.
Fuel-based rendering of the `while`; `freshSuffix` supplies fuel
`used.length + 1`, which `freshSuffix_fresh` proves sufficient. -/
def freshSuffixAux (cid : Val) : Nat → Val → Nat → List Val → Val
  | 0, newId, _, _ => newId
  | fuel+1, newId, suffix, used =>
    if newId ∈ used then freshSuffixAux cid fuel (suffixId cid suffix) (suffix + 1) used
    else newId

def freshSuffix (cid : Val) (used : List Val) : Val :=
  freshSuffixAux cid (used.length + 1) cid 1 used

theorem freshSuffixAux_not_mem (cid : Val) :
    ∀ fuel newId suffix used,
      (newId ∉ used ∨ ∃ j, j < fuel ∧ suffixId cid (suffix + j) ∉ used) →
      freshSuffixAux cid fuel newId suffix used ∉ used := by
  intro fuel
  induction fuel with
  | zero =>
    intro newId suffix used h
    rcases h with h | ⟨j, hj, _⟩
    · exact h
    · omega
  | succ fuel ih =>
    intro newId suffix used h
    by_cases hmem : newId ∈ used
    · rw [freshSuffixAux, if_pos hmem]
      refine ih (suffixId cid suffix) (suffix + 1) used ?_
      rcases h with h | ⟨j, hj, hfresh⟩
      · exact absurd hmem h
      · match j, hj with
        | 0, _ => exact Or.inl (by simpa using hfresh)
        | j'+1, hj =>
          exact Or.inr ⟨j', by omega,
            by rw [show suffix + 1 + j' = suffix + (j' + 1) by omega]; exact hfresh⟩
    · rw [freshSuffixAux, if_neg hmem]
      exact hmem

theorem suffixId_injective (cid : Val) : Function.Injective (suffixId cid) := by
  intro a b h
  have h1 : (pyStr cid ++ "_") ++ natDecimal a = (pyStr cid ++ "_") ++ natDecimal b := by
    have := Val.str.inj h
    simpa [String.append_assoc] using this
  exact natDecimal_injective (string_append_right_injective _ h1)

theorem freshSuffix_fresh (cid : Val) (used : List Val) : freshSuffix cid used ∉ used := by
  refine freshSuffixAux_not_mem cid _ cid 1 used ?_
  by_cases hc : cid ∈ used
  · obtain ⟨k, hk, hfresh⟩ := exists_fresh_index (fun j => suffixId cid (1 + j))
      (fun a b h => by have := suffixId_injective cid h; omega) used
    exact Or.inr ⟨k, by omega, hfresh⟩
  · exact Or.inl hc

/-! ### The classifier, sanitizer, normalizer and resequencer of
`app/ai_service.py` -/

/-- Tag-scanning loop of `AIService._extract_riasec_primary`: the first
string tag that strips to a bare RIASEC letter or a recognized full
category name wins; other tags are ignored. -/
def extractLoop : List Val → Option String
  | [] => Option.none
  | .str tag :: rest =>
    let t := pyStrip tag
    if t = "R" ∨ t = "I" ∨ t = "A" ∨ t = "S" ∨ t = "E" ∨ t = "C" then some t
    else if t = "Realistic" then some "R"
    else if t = "Investigative" then some "I"
    else if t = "Artistic" then some "A"
    else if t = "Social" then some "S"
    else if t = "Enterprising" then some "E"
    else if t = "Conventional" then some "C"
    else extractLoop rest
  | _ :: rest => extractLoop rest

/-- `AIService._extract_riasec_primary`: `None` unless `tags` is a non-empty
list (an empty list is falsy, and `extractLoop [] = none` covers it). -/
def extract_riasec_primary (tags : Val) : Option String :=
  match tags with
  | .list ts => extractLoop ts
  | _ => Option.none

/-- The option-validation loop shared verbatim by
`_normalize_step1_questions` and `_sanitize_options`: keep dict elements
whose `id`/`key` and `text`/`label` fields coerce to non-empty trimmed
strings, rebuilding each as `{"id": oid, "text": text}`. -/
def validOptionList : List Val → List Obj
  | [] => []
  | .dict oo :: rest =>
    let oid := pyStrip (pyStr (pyOr (objGet oo "id") (pyOr (objGet oo "key") (.str ""))))
    let text := pyStrip (pyStr (pyOr (objGet oo "text") (pyOr (objGet oo "label") (.str ""))))
    if oid ≠ "" ∧ text ≠ "" then
      [("id", Val.str oid), ("text", Val.str text)] :: validOptionList rest
    else validOptionList rest
  | _ :: rest => validOptionList rest

/-- The fixed Likert-style default option set of `_sanitize_options`. -/
def likertDefaults : List Obj :=
  [[("id", Val.str "a"), ("text", Val.str "Sounds exactly like me")],
   [("id", Val.str "b"), ("text", Val.str "Somewhat like me")],
   [("id", Val.str "c"), ("text", Val.str "A little like me")],
   [("id", Val.str "d"), ("text", Val.str "Not like me")]]

/-- The `fallback_stream` padding pairs of `_sanitize_options`. -/
def fallbackStream : List (String × String) :=
  [("a", "Sounds exactly like me"), ("b", "Somewhat like me"),
   ("c", "A little like me"), ("d", "Not like me")]

/-- `v["id"]` for option records built by `validOptionList` or the default
sets (always a string there; `""` is an unreachable fallback). -/
def optId (o : Obj) : String :=
  match objGetOpt o "id" with
  | some (.str s) => s
  | _ => ""

/-- The padding loop of `_sanitize_options`: walk `fallback_stream`,
stopping at 4 options, skipping default ids already present. -/
def padOptions : List (String × String) → List Obj → List String → List Obj
  | [], valid, _ => valid
  | (oid, text) :: rest, valid, ids =>
    if valid.length ≥ 4 then valid
    else if oid ∈ ids then padOptions rest valid ids
    else padOptions rest (valid ++ [[("id", Val.str oid), ("text", Val.str text)]]) (ids ++ [oid])

/-- The `valid` list both `_normalize_step1_questions` and
`_sanitize_options` build: run `validOptionList` when the value is a list,
else keep nothing (`if isinstance(options, list)` guard). -/
def keptOptions (options : Val) : List Obj :=
  match options with
  | .list os => validOptionList os
  | _ => []

/-- `AIService._sanitize_options`. -/
def sanitize_options (options : Val) : List Obj :=
  let valid := keptOptions options
  if valid.length < 2 then likertDefaults
  else padOptions fallbackStream (valid.take 4) ((valid.take 4).map optId)

/-- One iteration of the `_normalize_step1_questions` loop on a dict
element: id selection (with regeneration on emptiness or collision), prompt
coercion, option validation, optional `scenario`/`tags` copy-through.
Returns the built record, the id consumed, and the updated counter. -/
def normalizeItem (qo : Obj) (seen : List String) (counter : Nat) : Obj × String × Nat :=
  let qid0 := pyStrip (pyStr (pyOr (objGet qo "id") (.str ("q" ++ natDecimal counter))))
  let idc := if qid0 = "" ∨ qid0 ∈ seen then freshQ counter seen else (qid0, counter)
  let prompt := pyStrip (pyStr (pyOr (objGet qo "prompt") (pyOr (objGet qo "question") (.str ""))))
  let options := pyOr (objGet qo "options") (.list [])
  let normOptions : List Obj := keptOptions options
  let item : Obj :=
    [("id", Val.str idc.1), ("prompt", Val.str prompt),
     ("options", Val.list (normOptions.map Val.dict))]
    ++ (if truthy (objGet qo "scenario") then [("scenario", objGet qo "scenario")] else [])
    ++ (if truthy (objGet qo "tags") then [("tags", objGet qo "tags")] else [])
  (item, idc.1, idc.2)

/-- The element loop of `_normalize_step1_questions` (non-dict elements are
skipped; `seen_ids` collects consumed ids, `counter` feeds id synthesis). -/
def normalizeLoop : List Val → List String → Nat → List Obj
  | [], _, _ => []
  | .dict qo :: rest, seen, counter =>
    let r := normalizeItem qo seen counter
    r.1 :: normalizeLoop rest (seen ++ [r.2.1]) r.2.2
  | _ :: rest, seen, counter => normalizeLoop rest seen counter

/-- `AIService._normalize_step1_questions` (non-list input yields `[]`). -/
def normalize_step1_questions (questions : Val) : List Obj :=
  match questions with
  | .list qs => normalizeLoop qs [] 1
  | _ => []

/-- The `enumerate(questions, start=1)` loop of
`_resequence_question_ids`: `{**question, "id": f"q{index}"}`. -/
def resequenceFrom : Nat → List Obj → List Obj
  | _, [] => []
  | i, q :: rest =>
    objInsert q "id" (Val.str ("q" ++ natDecimal i)) :: resequenceFrom (i + 1) rest

/-- `AIService._resequence_question_ids`. -/
def resequence_question_ids (questions : List Obj) : List Obj :=
  resequenceFrom 1 questions

/-! ### The per-student fallback bank (`AIService._fallback_by_riasec`) -/

/-- The student profile bundle, typed as in the spec (name, dream job and
the ordered hobby list are the only fields `_fallback_by_riasec` reads;
each may be any value / absent, the hobby list holds arbitrary values). -/
structure StudentProfile where
  name : Val
  dream_job : Val
  hobbies_and_passions : List Val

/-- `hobbies[0] if hobbies else "your favorite activity"` (with
`hobbies = profile.get("hobbies_and_passions") or []`). -/
def hobbyOf (p : StudentProfile) : Val :=
  match p.hobbies_and_passions with
  | [] => Val.str "your favorite activity"
  | h :: _ => h

/-- `profile.get("dream_job") or "a role you aspire to"`. -/
def dreamJobOf (p : StudentProfile) : Val :=
  pyOr p.dream_job (Val.str "a role you aspire to")

/-- `AIService._fallback_by_riasec`: the static per-category pools (two
pre-authored questions per RIASEC code), with f-string personalization from
the student context. -/
def fallback_by_riasec (p : StudentProfile) : List (String × List Obj) :=
  [("R",
    [[("id", Val.str "R1"),
      ("prompt", Val.str "You have access to a maker lab for an hour. What would you most like to do?"),
      ("scenario", Val.str "School makerspace hour"),
      ("options", Val.list
        [Val.dict [("id", Val.str "a"), ("text", Val.str "Build or fix a simple device using tools")],
         Val.dict [("id", Val.str "b"), ("text", Val.str "Sketch ideas for a future project")],
         Val.dict [("id", Val.str "c"), ("text", Val.str "Plan tasks and assign roles")],
         Val.dict [("id", Val.str "d"), ("text", Val.str "Research best practices before starting")]]),
      ("tags", Val.list [Val.str "R"])],
     [("id", Val.str "R2"),
      ("prompt", Val.str "Which weekend plan sounds most fun to you?"),
      ("options", Val.list
        [Val.dict [("id", Val.str "a"), ("text", Val.str "Do a hands-on activity like biking, hiking, or fixing something")],
         Val.dict [("id", Val.str "b"), ("text", Val.str "Write or create digital art")],
         Val.dict [("id", Val.str "c"), ("text", Val.str "Lead a community game or event")],
         Val.dict [("id", Val.str "d"), ("text", Val.str "Study an interesting topic online")]]),
      ("tags", Val.list [Val.str "R"])]]),
   ("I",
    [[("id", Val.str "I1"),
      ("prompt", Val.str "You notice a pattern in how your classmates learn. What do you do next?"),
      ("options", Val.list
        [Val.dict [("id", Val.str "a"), ("text", Val.str "Design an experiment to test your idea")],
         Val.dict [("id", Val.str "b"), ("text", Val.str "Share a motivational story with the class")],
         Val.dict [("id", Val.str "c"), ("text", Val.str "Create a poster to explain it visually")],
         Val.dict [("id", Val.str "d"), ("text", Val.str "Coordinate a study group")]]),
      ("tags", Val.list [Val.str "I"])],
     [("id", Val.str "I2"),
      ("prompt", Val.str "A device at an event stops working. What is your first step?"),
      ("scenario", Val.str "Live school event"),
      ("options", Val.list
        [Val.dict [("id", Val.str "a"), ("text", Val.str "Diagnose the root cause step by step")],
         Val.dict [("id", Val.str "b"), ("text", Val.str "Announce a quick plan and delegate")],
         Val.dict [("id", Val.str "c"), ("text", Val.str "Document the incident and adjust the schedule")],
         Val.dict [("id", Val.str "d"), ("text", Val.str "Improvise a creative workaround")]]),
      ("tags", Val.list [Val.str "I"])]]),
   ("A",
    [[("id", Val.str "A1"),
      ("prompt", Val.str ("You are creating something related to " ++ pyStr (hobbyOf p) ++ ". Which approach excites you most?")),
      ("options", Val.list
        [Val.dict [("id", Val.str "a"), ("text", Val.str "Try a bold, original style")],
         Val.dict [("id", Val.str "b"), ("text", Val.str "Follow a proven template")],
         Val.dict [("id", Val.str "c"), ("text", Val.str "Gather data to inform the design")],
         Val.dict [("id", Val.str "d"), ("text", Val.str "Organize a team to produce it")]]),
      ("tags", Val.list [Val.str "A"])],
     [("id", Val.str "A2"),
      ("prompt", Val.str "In a group project, which role do you pick?"),
      ("options", Val.list
        [Val.dict [("id", Val.str "a"), ("text", Val.str "Designer who makes it creative")],
         Val.dict [("id", Val.str "b"), ("text", Val.str "Leader who coordinates tasks")],
         Val.dict [("id", Val.str "c"), ("text", Val.str "Researcher who digs into facts")],
         Val.dict [("id", Val.str "d"), ("text", Val.str "Organizer who tracks progress")]]),
      ("tags", Val.list [Val.str "A"])]]),
   ("S",
    [[("id", Val.str "S1"),
      ("prompt", Val.str "A friend struggles to understand a topic you like. What do you do?"),
      ("options", Val.list
        [Val.dict [("id", Val.str "a"), ("text", Val.str "Explain it with simple examples")],
         Val.dict [("id", Val.str "b"), ("text", Val.str "Create a visual guide")],
         Val.dict [("id", Val.str "c"), ("text", Val.str "Assign practice tasks")],
         Val.dict [("id", Val.str "d"), ("text", Val.str "Research more before responding")]]),
      ("tags", Val.list [Val.str "S"])],
     [("id", Val.str "S2"),
      ("prompt", Val.str "At a community event, which activity draws you in?"),
      ("options", Val.list
        [Val.dict [("id", Val.str "a"), ("text", Val.str "Helping visitors and answering questions")],
         Val.dict [("id", Val.str "b"), ("text", Val.str "Designing posters or visuals")],
         Val.dict [("id", Val.str "c"), ("text", Val.str "Analyzing feedback data")],
         Val.dict [("id", Val.str "d"), ("text", Val.str "Operating equipment")]]),
      ("tags", Val.list [Val.str "S"])]]),
   ("E",
    [[("id", Val.str "E1"),
      ("prompt", Val.str ("You want to start a small initiative at school around " ++ pyStr (hobbyOf p) ++ ". What is your first move?")),
      ("options", Val.list
        [Val.dict [("id", Val.str "a"), ("text", Val.str "Pitch the idea and inspire a team")],
         Val.dict [("id", Val.str "b"), ("text", Val.str "Design a logo and theme")],
         Val.dict [("id", Val.str "c"), ("text", Val.str "Draft a detailed timeline")],
         Val.dict [("id", Val.str "d"), ("text", Val.str "Research similar initiatives")]]),
      ("tags", Val.list [Val.str "E"])],
     [("id", Val.str "E2"),
      ("prompt", Val.str ("If you were leading a club related to " ++ pyStr (dreamJobOf p) ++ ", what would you focus on first?")),
      ("options", Val.list
        [Val.dict [("id", Val.str "a"), ("text", Val.str "Build excitement and recruit members")],
         Val.dict [("id", Val.str "b"), ("text", Val.str "Create visuals and publicity")],
         Val.dict [("id", Val.str "c"), ("text", Val.str "Set up processes and roles")],
         Val.dict [("id", Val.str "d"), ("text", Val.str "Collect data on member interests")]]),
      ("tags", Val.list [Val.str "E"])]]),
   ("C",
    [[("id", Val.str "C1"),
      ("prompt", Val.str "When planning a class event, which task do you enjoy most?"),
      ("options", Val.list
        [Val.dict [("id", Val.str "a"), ("text", Val.str "Organizing schedules and checklists")],
         Val.dict [("id", Val.str "b"), ("text", Val.str "Creating posters and themes")],
         Val.dict [("id", Val.str "c"), ("text", Val.str "Testing and reviewing equipment")],
         Val.dict [("id", Val.str "d"), ("text", Val.str "Giving a motivating speech")]]),
      ("tags", Val.list [Val.str "C"])],
     [("id", Val.str "C2"),
      ("prompt", Val.str "You are assigned to document a project. What do you do first?"),
      ("options", Val.list
        [Val.dict [("id", Val.str "a"), ("text", Val.str "Create a clear template and file structure")],
         Val.dict [("id", Val.str "b"), ("text", Val.str "Design a cover page")],
         Val.dict [("id", Val.str "c"), ("text", Val.str "Interview team members")],
         Val.dict [("id", Val.str "d"), ("text", Val.str "Run a test of the final product")]]),
      ("tags", Val.list [Val.str "C"])]])]

/-- `pools.get(code, [])`. -/
def poolGet (pools : List (String × List Obj)) (code : String) : List Obj :=
  ((pools.find? (fun p => p.1 == code)).map (fun p => p.2)).getD []

/-! ### The quota allocator (`AIService._enforce_riasec_distribution`) -/

/-- The quota table `RIASEC_COVERAGE_REQUIRED` (a Python dict, in
declaration order). -/
def RIASEC_COVERAGE_REQUIRED : List (String × Nat) :=
  [("R", 2), ("I", 2), ("A", 2), ("S", 2), ("E", 1), ("C", 1)]

/-- `buckets[code]` after the allocator's bucketing pass: appending each
candidate to the bucket of its primary category preserves candidate order,
so a bucket is the order-preserving filter by primary category. -/
def bucketOf (questions : List Obj) (code : String) : List Obj :=
  questions.filter (fun q => extract_riasec_primary (objGet q "tags") == some code)

/-- Inner loop of the primary fill over `take = buckets[code][:need]`: skip
items whose id is already used, else select them and mark
`item.get("id", "")` used. -/
def takeLoop : List Obj → List Obj × List Val → List Obj × List Val
  | [], st => st
  | item :: rest, (sel, used) =>
    if objGet item "id" ∈ used then takeLoop rest (sel, used)
    else takeLoop rest (sel ++ [item], used ++ [objGetD item "id" (Val.str "")])

/-- The primary-fill pass of `_enforce_riasec_distribution`: for each
category in table order, take up to `need` items from its bucket. -/
def primaryFill (desired : List (String × Nat)) (questions : List Obj) :
    List Obj × List Val :=
  desired.foldl (fun st cn => takeLoop ((bucketOf questions cn.1).take cn.2) st) ([], [])

/-- `len([q for q in sel if _extract_riasec_primary(q.get("tags")) == code])`. -/
def countC (sel : List Obj) (code : String) : Nat :=
  (sel.filter (fun q => extract_riasec_primary (objGet q "tags") == some code)).length

/-- Candidate loop of the deficit fill: add fallback candidates (with a
collision-free id from `freshSuffix`) until the deficit is exhausted or the
pool runs out. -/
def deficitPool : List Obj → Nat → List Obj × List Val → List Obj × List Val
  | [], _, st => st
  | candidate :: rest, deficit, (sel, used) =>
    if deficit = 0 then (sel, used)
    else
      let newId := freshSuffix (objGet candidate "id") used
      deficitPool rest (deficit - 1)
        (sel ++ [objInsert candidate "id" newId], used ++ [newId])

/-- The deficit-fill pass: per category in table order, top the selection up
towards quota from the category's fallback pool (`deficit = need -
len(current)` with the `deficit <= 0: continue` guard, i.e. truncated
subtraction). -/
def deficitFill (desired : List (String × Nat)) (pools : List (String × List Obj))
    (st : List Obj × List Val) : List Obj × List Val :=
  desired.foldl (fun st cn => deficitPool (poolGet pools cn.1) (cn.2 - countC st.1 cn.1) st) st

/-- Innermost candidate loop of the top-up safety net (adds every pool
candidate, breaking only once the total is reached). -/
def topUpInner (total : Nat) : List Obj → List Obj × List Val → List Obj × List Val
  | [], st => st
  | candidate :: rest, (sel, used) =>
    let newId := freshSuffix (objGet candidate "id") used
    let sel2 := sel ++ [objInsert candidate "id" newId]
    let used2 := used ++ [newId]
    if sel2.length ≥ total then (sel2, used2)
    else topUpInner total rest (sel2, used2)

/-- One pass of the top-up `for code in ["R","I","A","S","E","C"]` loop. -/
def topUpPass (total : Nat) (pools : List (String × List Obj))
    (st : List Obj × List Val) : List Obj × List Val :=
  ["R", "I", "A", "S", "E", "C"].foldl
    (fun st code =>
      if st.1.length ≥ total then st else topUpInner total (poolGet pools code) st) st

/-- The `while len(selected) < total_needed` top-up loop, fuel-bounded.
When the pools are all empty and the selection is short, the Python loop
does not terminate; the fuel-out branch returns the current state and is
exercised by no theorem below.  In every configuration the pipeline
reaches, the deficit fill has already brought the selection to `total`, so
the loop exits at its first test. -/
def topUpWhile (total : Nat) (pools : List (String × List Obj)) :
    Nat → List Obj × List Val → List Obj × List Val
  | 0, st => st
  | fuel+1, st =>
    if st.1.length < total then topUpWhile total pools fuel (topUpPass total pools st)
    else st

/-- The surplus-trim pass of `_enforce_riasec_distribution`: when the
selection exceeds the total, mark each category's selected indices beyond
its quota (`idxs[need:]`) for removal and drop them, preserving the
relative order of the rest. -/
def trimSurplus (desired : List (String × Nat)) (total : Nat) (sel : List Obj) : List Obj :=
  if sel.length > total then
    let toRemove := desired.foldl
      (fun acc cn =>
        let idxs := (sel.enum.filter
          (fun iq => extract_riasec_primary (objGet iq.2 "tags") == some cn.1)).map
          (fun iq => iq.1)
        acc ++ idxs.drop cn.2) []
    (sel.enum.filter (fun iq => iq.1 ∉ toRemove)).map (fun iq => iq.2)
  else sel

/-- The final per-survivor sanitation loop of `_enforce_riasec_distribution`:
re-coerce the prompt, drop a non-string `scenario`, and replace `options`
with `_sanitize_options(q.get("options"))`. -/
def sanitizeQuestion (q : Obj) : Obj :=
  let q1 := objInsert q "prompt"
    (Val.str (pyStrip (pyStr (pyOr (objGet q "prompt") (pyOr (objGet q "question") (Val.str ""))))))
  let q2 := match objGetOpt q1 "scenario" with
    | some (.str _) => q1
    | some _ => objErase q1 "scenario"
    | Option.none => q1
  objInsert q2 "options" (Val.list ((sanitize_options (objGet q2 "options")).map Val.dict))

/-- `AIService._enforce_riasec_distribution`. -/
def enforce_riasec_distribution (questions : List Obj) (desired : List (String × Nat))
    (p : StudentProfile) : List Obj :=
  let total := (desired.map (fun cn => cn.2)).sum
  let pools := fallback_by_riasec p
  let st1 := primaryFill desired questions
  let st2 := deficitFill desired pools st1
  let st3 := topUpWhile total pools total st2
  let sel := trimSurplus desired total st3.1
  (sel.map sanitizeQuestion).take total

/-! ### The question-generation entry point (`generate_step1_questions`) -/

/-- Pre-shuffle pipeline of `generate_step1_questions` in its `try` branch,
as a function of the parsed response object `data`
(`json.loads(match.group(0)) if match else {"questions": []}`): normalize
`data.get("questions", [])`, then enforce the quota table.  A `json.loads`
failure raises instead and lands in `step1_fallback_pre_shuffle`. -/
def step1_data_pre_shuffle (data : Obj) (p : StudentProfile) : List Obj :=
  enforce_riasec_distribution
    (normalize_step1_questions (objGetD data "questions" (Val.list [])))
    RIASEC_COVERAGE_REQUIRED p

/-- Pre-shuffle question list when the brace regex finds no match in the
model text (`data = {"questions": []}`). -/
def step1_nomatch_pre_shuffle (p : StudentProfile) : List Obj :=
  step1_data_pre_shuffle [("questions", Val.list [])] p

/-- Pre-shuffle question list of the `except` branch of
`generate_step1_questions` (any upstream exception, including a parse
error): `_enforce_riasec_distribution([], RIASEC_COVERAGE_REQUIRED, …)`. -/
def step1_fallback_pre_shuffle (p : StudentProfile) : List Obj :=
  enforce_riasec_distribution [] RIASEC_COVERAGE_REQUIRED p

/-- The tail of both branches of `generate_step1_questions`, applied to the
shuffled list: truncate to 10 and resequence ids (`random.shuffle` is
modelled as an arbitrary permutation hypothesis in the theorems). -/
def step1_finalize (shuffled : List Obj) : List Obj :=
  resequence_question_ids (shuffled.take 10)

/-! ### Resequencer lemmas -/

theorem objGet_objInsert_self (o : Obj) (k : String) (v : Val) :
    objGet (objInsert o k v) k = v := by
  rw [objGet, objGetOpt_objInsert_self]
  rfl

theorem objGet_objInsert_ne (o : Obj) (k k' : String) (v : Val) (h : k' ≠ k) :
    objGet (objInsert o k v) k' = objGet o k' := by
  rw [objGet, objGetOpt_objInsert_ne o k k' v h, objGet]

theorem resequenceFrom_length : ∀ (qs : List Obj) (i : Nat),
    (resequenceFrom i qs).length = qs.length := by
  intro qs
  induction qs with
  | nil => intro i; rfl
  | cons q rest ih => intro i; simp [resequenceFrom, ih]

theorem resequenceFrom_ids : ∀ (qs : List Obj) (i : Nat),
    (resequenceFrom i qs).map (fun q => objGet q "id") =
      (List.range qs.length).map (fun k => Val.str ("q" ++ natDecimal (i + k))) := by
  intro qs
  induction qs with
  | nil => intro i; rfl
  | cons q rest ih =>
    intro i
    simp only [resequenceFrom, List.map_cons, objGet_objInsert_self, List.length_cons,
      List.range_succ_eq_map, List.map_map, ih (i + 1)]
    congr 1
    refine List.map_congr_left (fun a _ => ?_)
    have e : i + 1 + a = i + (a + 1) := by omega
    simp [Function.comp, e]

theorem resequenceFrom_get : ∀ (qs : List Obj) (i k : Nat) (h : k < qs.length)
    (h2 : k < (resequenceFrom i qs).length),
    (resequenceFrom i qs).get ⟨k, h2⟩ =
      objInsert (qs.get ⟨k, h⟩) "id" (Val.str ("q" ++ natDecimal (i + k))) := by
  intro qs
  induction qs with
  | nil => intro i k h _; simp at h
  | cons q rest ih =>
    intro i k h h2
    cases k with
    | zero => simp [resequenceFrom]
    | succ k =>
      have hr : k < rest.length := by simpa using h
      have hr2 : k < (resequenceFrom (i + 1) rest).length := by
        rw [resequenceFrom_length]; exact hr
      have hstep := ih (i + 1) k hr hr2
      simp only [resequenceFrom, List.get_cons_succ]
      rw [hstep]
      have e : i + 1 + k = i + (k + 1) := by omega
      rw [e]

theorem qidVal_injective :
    Function.Injective (fun k : Nat => Val.str ("q" ++ natDecimal (k + 1))) := by
  intro a b h
  have h1 := Val.str.inj h
  have h2 := string_append_right_injective "q" h1
  have h3 := natDecimal_injective h2
  omega

/-- C9: after the Resequencer, the element at 0-based position `k` has id
`"q" ++ (k+1)` for every `k < T` (so the output ids are exactly
`q1, …, qT`, pairwise distinct), and every other field of each record is
unchanged. -/
theorem resequence_question_ids_spec (qs : List Obj) :
    ((resequence_question_ids qs).map (fun q => objGet q "id") =
      (List.range qs.length).map (fun k => Val.str ("q" ++ natDecimal (k + 1)))) ∧
    ((resequence_question_ids qs).map (fun q => objGet q "id")).Nodup ∧
    (∀ k (hk : k < qs.length) (hk2 : k < (resequence_question_ids qs).length),
      objGetOpt ((resequence_question_ids qs).get ⟨k, hk2⟩) "id" =
        some (Val.str ("q" ++ natDecimal (k + 1))) ∧
      ∀ key, key ≠ "id" →
        objGetOpt ((resequence_question_ids qs).get ⟨k, hk2⟩) key =
          objGetOpt (qs.get ⟨k, hk⟩) key) := by
  have hids : (resequence_question_ids qs).map (fun q => objGet q "id") =
      (List.range qs.length).map (fun k => Val.str ("q" ++ natDecimal (k + 1))) := by
    unfold resequence_question_ids
    rw [resequenceFrom_ids]
    refine List.map_congr_left (fun a _ => ?_)
    have e : 1 + a = a + 1 := by omega
    rw [e]
  refine ⟨hids, ?_, ?_⟩
  · rw [hids]
    exact List.Nodup.map qidVal_injective (List.nodup_range _)
  · intro k hk hk2
    have hget := resequenceFrom_get qs 1 k hk
      (by simpa [resequence_question_ids] using hk2)
    unfold resequence_question_ids at hk2 ⊢
    rw [hget]
    have e : 1 + k = k + 1 := by omega
    rw [e]
    exact ⟨objGetOpt_objInsert_self _ _ _,
      fun key hkey => objGetOpt_objInsert_ne _ _ _ _ hkey⟩

/-- Witness for C9 at a concrete two-element list. -/
theorem resequence_question_ids_spec_witness :
    objGetOpt ((resequence_question_ids
        [[("id", Val.str "z"), ("foo", Val.int 7)],
         [("prompt", Val.str "p")]]).get ⟨0, by decide⟩) "id" =
      some (Val.str ("q" ++ natDecimal 1)) ∧
    objGetOpt ((resequence_question_ids
        [[("id", Val.str "z"), ("foo", Val.int 7)],
         [("prompt", Val.str "p")]]).get ⟨0, by decide⟩) "foo" =
      objGetOpt ([("id", Val.str "z"), ("foo", Val.int 7)] : Obj) "foo" := by
  have h := (resequence_question_ids_spec
    [[("id", Val.str "z"), ("foo", Val.int 7)], [("prompt", Val.str "p")]]).2.2
    0 (by decide) (by decide)
  exact ⟨h.1, h.2 "foo" (by decide)⟩

/-! ### Option sanitizer lemmas -/

/-- Shape of every option record the sanitizer pipeline can emit: a
two-field `id`/`text` record with non-empty, already-stripped strings. -/
def OptShape (o : Obj) : Prop :=
  ∃ i t, o = [("id", Val.str i), ("text", Val.str t)] ∧
    i ≠ "" ∧ t ≠ "" ∧ pyStrip i = i ∧ pyStrip t = t

theorem validOptionList_shape : ∀ os, ∀ o ∈ validOptionList os, OptShape o := by
  intro os
  induction os with
  | nil => intro o ho; simp [validOptionList] at ho
  | cons x rest ih =>
    intro o ho
    cases x with
    | dict oo =>
      simp only [validOptionList] at ho
      split at ho
      · rcases List.mem_cons.mp ho with rfl | hmem
        · next hcond =>
          exact ⟨_, _, rfl, hcond.1, hcond.2, pyStrip_idem _, pyStrip_idem _⟩
        · exact ih o hmem
      · exact ih o ho
    | none => exact ih o (by simpa [validOptionList] using ho)
    | bool b => exact ih o (by simpa [validOptionList] using ho)
    | int n => exact ih o (by simpa [validOptionList] using ho)
    | str s => exact ih o (by simpa [validOptionList] using ho)
    | list xs => exact ih o (by simpa [validOptionList] using ho)

theorem likertDefaults_shape : ∀ o ∈ likertDefaults, OptShape o := by
  intro o ho
  simp only [likertDefaults, List.mem_cons, List.mem_singleton] at ho
  rcases ho with rfl | rfl | rfl | rfl | h
  · exact ⟨_, _, rfl, by decide, by decide, by decide, by decide⟩
  · exact ⟨_, _, rfl, by decide, by decide, by decide, by decide⟩
  · exact ⟨_, _, rfl, by decide, by decide, by decide, by decide⟩
  · exact ⟨_, _, rfl, by decide, by decide, by decide, by decide⟩
  · simp at h

theorem padOptions_shape : ∀ (stream : List (String × String)) (valid : List Obj)
    (ids : List String),
    (∀ o ∈ valid, OptShape o) →
    (∀ p ∈ stream, OptShape [("id", Val.str p.1), ("text", Val.str p.2)]) →
    ∀ o ∈ padOptions stream valid ids, OptShape o := by
  intro stream
  induction stream with
  | nil => intro valid ids hv _ o ho; exact hv o ho
  | cons p rest ih =>
    intro valid ids hv hs o ho
    obtain ⟨oid, text⟩ := p
    rw [padOptions] at ho
    split at ho
    · exact hv o ho
    · split at ho
      · exact ih valid ids hv (fun q hq => hs q (by simp [hq])) o ho
      · refine ih _ _ ?_ (fun q hq => hs q (by simp [hq])) o ho
        intro q hq
        rcases List.mem_append.mp hq with hq | hq
        · exact hv q hq
        · simp only [List.mem_singleton] at hq
          subst hq
          exact hs (oid, text) (by simp)

theorem fallbackStream_shape :
    ∀ p ∈ fallbackStream, OptShape [("id", Val.str p.1), ("text", Val.str p.2)] := by
  intro p hp
  simp only [fallbackStream, List.mem_cons, List.mem_singleton] at hp
  rcases hp with rfl | rfl | rfl | rfl | h
  · exact ⟨_, _, rfl, by decide, by decide, by decide, by decide⟩
  · exact ⟨_, _, rfl, by decide, by decide, by decide, by decide⟩
  · exact ⟨_, _, rfl, by decide, by decide, by decide, by decide⟩
  · exact ⟨_, _, rfl, by decide, by decide, by decide, by decide⟩
  · simp at h

theorem keptOptions_shape (v : Val) : ∀ o ∈ keptOptions v, OptShape o := by
  cases v with
  | list os => exact validOptionList_shape os
  | none => intro o ho; simp [keptOptions] at ho
  | bool b => intro o ho; simp [keptOptions] at ho
  | int n => intro o ho; simp [keptOptions] at ho
  | str s => intro o ho; simp [keptOptions] at ho
  | dict kvs => intro o ho; simp [keptOptions] at ho

theorem sanitize_options_shape (v : Val) : ∀ o ∈ sanitize_options v, OptShape o := by
  have hvalid := keptOptions_shape v
  intro o ho
  simp only [sanitize_options] at ho
  split at ho
  · exact likertDefaults_shape o ho
  · refine padOptions_shape _ _ _ ?_ fallbackStream_shape o ho
    intro q hq
    exact hvalid q (List.take_sublist _ _ |>.mem hq)

theorem length_filter_partition (l : List String) (p : String → Bool) :
    (l.filter p).length + (l.filter (fun a => !(p a))).length = l.length := by
  induction l with
  | nil => rfl
  | cons x rest ih => by_cases h : p x <;> simp [List.filter_cons, h] <;> omega

theorem padOptions_length :
    ∀ (stream : List (String × String)) (valid : List Obj) (ids : List String),
      (stream.map Prod.fst).Nodup →
      valid.length ≤ 4 →
      4 - valid.length ≤
        ((stream.map Prod.fst).filter (fun x => decide (x ∉ ids))).length →
      (padOptions stream valid ids).length = 4 := by
  intro stream
  induction stream with
  | nil =>
    intro valid ids _ h4 hcount
    simp only [List.map_nil, List.filter_nil, List.length_nil] at hcount
    rw [padOptions]
    omega
  | cons p rest ih =>
    intro valid ids hnd h4 hcount
    obtain ⟨oid, text⟩ := p
    simp only [List.map_cons] at hnd hcount
    have hndrest : ((rest.map Prod.fst)).Nodup := hnd.of_cons
    have hoidnot : oid ∉ rest.map Prod.fst := (List.nodup_cons.mp hnd).1
    rw [padOptions]
    by_cases hge : valid.length ≥ 4
    · rw [if_pos hge]; omega
    · rw [if_neg hge]
      by_cases hin : oid ∈ ids
      · rw [if_pos hin]
        refine ih valid ids hndrest h4 ?_
        have heq : ((oid :: rest.map Prod.fst).filter (fun x => decide (x ∉ ids))).length =
            ((rest.map Prod.fst).filter (fun x => decide (x ∉ ids))).length := by
          simp [List.filter_cons, hin]
        omega
      · rw [if_neg hin]
        refine ih _ _ hndrest (by simp; omega) ?_
        have heq : (rest.map Prod.fst).filter (fun x => decide (x ∉ ids ++ [oid])) =
            (rest.map Prod.fst).filter (fun x => decide (x ∉ ids)) := by
          refine List.filter_congr (fun x hx => ?_)
          have hxo : x ≠ oid := fun h => hoidnot (h ▸ hx)
          simp [List.mem_append, hxo]
        have hcons : ((oid :: rest.map Prod.fst).filter (fun x => decide (x ∉ ids))).length =
            1 + ((rest.map Prod.fst).filter (fun x => decide (x ∉ ids))).length := by
          simp [List.filter_cons, hin]
          omega
        rw [heq]
        simp only [List.length_append, List.length_cons, List.length_nil]
        omega

theorem sanitize_branch_length (valid : List Obj) (h2 : ¬ valid.length < 2) :
    (padOptions fallbackStream (valid.take 4) ((valid.take 4).map optId)).length = 4 := by
  have hlen4 : (valid.take 4).length ≤ 4 := by
    simp [List.length_take]
  have hlen2 : 2 ≤ (valid.take 4).length := by
    simp only [List.length_take]
    omega
  refine padOptions_length fallbackStream _ _ (by decide) hlen4 ?_
  set ids := (valid.take 4).map optId with hids
  have hidslen : ids.length = (valid.take 4).length := by simp [hids]
  have hpart := length_filter_partition (fallbackStream.map Prod.fst)
    (fun x => decide (x ∈ ids))
  have hinle : ((fallbackStream.map Prod.fst).filter (fun x => decide (x ∈ ids))).length ≤
      ids.length := by
    refine nodup_subset_length (List.Nodup.filter _ (by decide)) ?_
    intro x hx
    exact of_decide_eq_true (List.mem_filter.mp hx).2
  have hnegeq : (fallbackStream.map Prod.fst).filter (fun x => decide (x ∉ ids)) =
      (fallbackStream.map Prod.fst).filter (fun x => !(decide (x ∈ ids))) := by
    refine List.filter_congr (fun x _ => ?_)
    simp
  rw [hnegeq]
  have hstreamlen : (fallbackStream.map Prod.fst).length = 4 := by decide
  omega

theorem sanitize_options_length (v : Val) : (sanitize_options v).length = 4 := by
  simp only [sanitize_options]
  split
  · rfl
  · next h2 => exact sanitize_branch_length _ h2

theorem optId_pair (i t : String) : optId [("id", Val.str i), ("text", Val.str t)] = i := rfl

theorem padOptions_nodup :
    ∀ (stream : List (String × String)) (valid : List Obj) (ids : List String),
      (valid.map optId).Nodup →
      (∀ s ∈ valid.map optId, s ∈ ids) →
      ((padOptions stream valid ids).map optId).Nodup := by
  intro stream
  induction stream with
  | nil => intro valid ids hnd _; exact hnd
  | cons p rest ih =>
    intro valid ids hnd hsub
    obtain ⟨oid, text⟩ := p
    rw [padOptions]
    split
    · exact hnd
    · split
      · exact ih valid ids hnd hsub
      · next hnotin =>
        refine ih _ _ ?_ ?_
        · rw [List.map_append]
          refine List.Nodup.append hnd (by simp) ?_
          intro s hs hs2
          simp only [List.map_cons, optId_pair, List.map_nil, List.mem_singleton] at hs2
          subst hs2
          exact hnotin (hsub s hs)
        · intro s hs
          rw [List.map_append] at hs
          rcases List.mem_append.mp hs with hs | hs
          · exact List.mem_append.mpr (Or.inl (hsub s hs))
          · simp only [List.map_cons, optId_pair, List.map_nil, List.mem_singleton] at hs
            subst hs
            simp

theorem validOptionList_of_shaped :
    ∀ out : List Obj, (∀ o ∈ out, OptShape o) → validOptionList (out.map Val.dict) = out := by
  intro out
  induction out with
  | nil => intro _; rfl
  | cons o rest ih =>
    intro h
    obtain ⟨i, t, rfl, hi, ht, hsi, hst⟩ := h o (by simp)
    have hgid : objGet [("id", Val.str i), ("text", Val.str t)] "id" = Val.str i := rfl
    have hgtext : objGet [("id", Val.str i), ("text", Val.str t)] "text" = Val.str t := rfl
    have htri : truthy (Val.str i) = true := by simp [truthy, hi]
    have htrt : truthy (Val.str t) = true := by simp [truthy, ht]
    have hoid : pyStrip (pyStr (pyOr (objGet [("id", Val.str i), ("text", Val.str t)] "id")
        (pyOr (objGet [("id", Val.str i), ("text", Val.str t)] "key") (Val.str "")))) = i := by
      rw [hgid, pyOr, if_pos htri]
      show pyStrip i = i
      exact hsi
    have htext : pyStrip (pyStr (pyOr (objGet [("id", Val.str i), ("text", Val.str t)] "text")
        (pyOr (objGet [("id", Val.str i), ("text", Val.str t)] "label") (Val.str "")))) = t := by
      rw [hgtext, pyOr, if_pos htrt]
      show pyStrip t = t
      exact hst
    rw [List.map_cons]
    simp only [validOptionList, hoid, htext]
    rw [if_pos ⟨hi, ht⟩, ih (fun q hq => h q (by simp [hq]))]

/-- C7: the Option Sanitizer is idempotent: applied to its own output
(re-encoded as a Python list of dicts) it returns the same 4 options
unchanged and in the same order. -/
theorem sanitize_options_idem (v : Val) :
    sanitize_options (Val.list ((sanitize_options v).map Val.dict)) = sanitize_options v := by
  have hshape := sanitize_options_shape v
  have hlen := sanitize_options_length v
  have hvalid : validOptionList ((sanitize_options v).map Val.dict) = sanitize_options v :=
    validOptionList_of_shaped _ hshape
  set S := sanitize_options v with hS
  show sanitize_options (Val.list (S.map Val.dict)) = S
  simp only [sanitize_options, keptOptions]
  rw [hvalid, hlen, if_neg (by omega)]
  have htake : S.take 4 = S := by
    rw [show (4 : Nat) = S.length from hlen.symm, List.take_length]
  rw [htake]
  rw [show fallbackStream = ("a", "Sounds exactly like me") ::
    [("b", "Somewhat like me"), ("c", "A little like me"), ("d", "Not like me")] from rfl]
  rw [padOptions, if_pos (by omega)]

theorem sanitize_nodup_of_kept_nodup (v : Val)
    (h : (((keptOptions v).take 4).map optId).Nodup) :
    ((sanitize_options v).map optId).Nodup := by
  simp only [sanitize_options]
  split
  · decide
  · exact padOptions_nodup fallbackStream _ _ h (fun s hs => hs)

theorem sanitizeQuestion_options (q : Obj) :
    ∃ w, objGet (sanitizeQuestion q) "options" =
      Val.list ((sanitize_options w).map Val.dict) := by
  simp only [sanitizeQuestion]
  exact ⟨_, objGet_objInsert_self _ _ _⟩

theorem enforce_mem_options (qs : List Obj) (desired : List (String × Nat))
    (p : StudentProfile) :
    ∀ q ∈ enforce_riasec_distribution qs desired p,
      ∃ w, objGet q "options" = Val.list ((sanitize_options w).map Val.dict) := by
  intro q hq
  simp only [enforce_riasec_distribution] at hq
  have hq2 := List.mem_of_mem_take hq
  obtain ⟨q', _, rfl⟩ := List.mem_map.mp hq2
  exact sanitizeQuestion_options q'

/-- Option ids of a question record, for stating id-uniqueness facts. -/
def questionOptionIds (q : Obj) : List String :=
  match objGet q "options" with
  | .list os => os.map (fun o => match o with | .dict oo => optId oo | _ => "")
  | _ => []

/-- C3 (amended): every pipeline output question's `options` value is the
sanitizer's output on some value; the sanitizer always returns exactly 4
options with non-empty `id` and `text`; appended default ids never collide
with kept ids, so the 4 ids are pairwise distinct whenever the kept valid
input options are duplicate-free — duplicated kept input ids, however, are
preserved verbatim. -/
theorem sanitize_options_spec :
    (∀ v : Val, (sanitize_options v).length = 4 ∧
      (∀ o ∈ sanitize_options v, ∃ i t,
        o = [("id", Val.str i), ("text", Val.str t)] ∧ i ≠ "" ∧ t ≠ "") ∧
      ((((keptOptions v).take 4).map optId).Nodup →
        ((sanitize_options v).map optId).Nodup)) ∧
    (∀ (qs : List Obj) (desired : List (String × Nat)) (p : StudentProfile),
      ∀ q ∈ enforce_riasec_distribution qs desired p,
        ∃ w, objGet q "options" = Val.list ((sanitize_options w).map Val.dict)) := by
  refine ⟨fun v => ⟨sanitize_options_length v, ?_, sanitize_nodup_of_kept_nodup v⟩,
    enforce_mem_options⟩
  intro o ho
  obtain ⟨i, t, he, hi, ht, _, _⟩ := sanitize_options_shape v o ho
  exact ⟨i, t, he, hi, ht⟩

/-- Witness for C3's amended theorem at `options = None` and concrete
membership instances. -/
theorem sanitize_options_spec_witness :
    (sanitize_options Val.none).length = 4 ∧
    (∃ i t, ([("id", Val.str "a"), ("text", Val.str "Sounds exactly like me")] : Obj) =
      [("id", Val.str i), ("text", Val.str t)] ∧ i ≠ "" ∧ t ≠ "") ∧
    ((sanitize_options Val.none).map optId).Nodup := by
  have h := sanitize_options_spec.1 Val.none
  exact ⟨h.1, h.2.1 _ (by decide), h.2.2 (by decide)⟩

/-- C3 counterexample: a pipeline run on one valid `R`-tagged candidate
whose four valid options carry ids `a, a, b, c` yields an output question
with exactly those duplicated option ids — option ids are not pairwise
distinct, contrary to the claim. -/
theorem enforce_duplicate_option_ids :
    ((enforce_riasec_distribution
        [[("id", Val.str "x"), ("prompt", Val.str "p"),
          ("options", Val.list
            [Val.dict [("id", Val.str "a"), ("text", Val.str "x1")],
             Val.dict [("id", Val.str "a"), ("text", Val.str "x2")],
             Val.dict [("id", Val.str "b"), ("text", Val.str "x3")],
             Val.dict [("id", Val.str "c"), ("text", Val.str "x4")]]),
          ("tags", Val.list [Val.str "R"])]]
        RIASEC_COVERAGE_REQUIRED ⟨Val.none, Val.none, []⟩).map questionOptionIds).head? =
      some ["a", "a", "b", "c"] ∧
    ¬ (["a", "a", "b", "c"] : List String).Nodup := by
  constructor
  · decide
  · decide

/-! ### Normalizer lemmas -/

theorem optId_of_getOpt {r : Obj} {s : String}
    (h : objGetOpt r "id" = some (Val.str s)) : optId r = s := by
  simp [optId, h]

theorem normalizeItem_id (qo : Obj) (seen : List String) (counter : Nat) :
    objGetOpt (normalizeItem qo seen counter).1 "id" =
      some (Val.str (normalizeItem qo seen counter).2.1) := by
  simp only [normalizeItem]
  exact objGetOpt_cons_self _ _ _

theorem normalizeItem_qid (qo : Obj) (seen : List String) (counter : Nat) :
    (normalizeItem qo seen counter).2.1 ∉ seen ∧ (normalizeItem qo seen counter).2.1 ≠ "" := by
  simp only [normalizeItem]
  by_cases hc : pyStrip (pyStr (pyOr (objGet qo "id")
      (Val.str ("q" ++ natDecimal counter)))) = "" ∨
    pyStrip (pyStr (pyOr (objGet qo "id") (Val.str ("q" ++ natDecimal counter)))) ∈ seen
  · rw [if_pos hc]
    exact ⟨freshQ_fresh counter seen, freshQ_ne_empty counter seen⟩
  · rw [if_neg hc]
    push_neg at hc
    exact ⟨hc.2, hc.1⟩

theorem normalizeLoop_spec : ∀ (qs : List Val) (seen : List String) (counter : Nat),
    (∀ r ∈ normalizeLoop qs seen counter,
      objGetOpt r "id" = some (Val.str (optId r)) ∧ optId r ≠ "" ∧ optId r ∉ seen) ∧
    ((normalizeLoop qs seen counter).map optId).Nodup := by
  intro qs
  induction qs with
  | nil =>
    intro seen counter
    constructor
    · intro r hr; simp [normalizeLoop] at hr
    · simp [normalizeLoop]
  | cons x rest ih =>
    intro seen counter
    cases x with
    | dict qo =>
      have hid := normalizeItem_id qo seen counter
      have hoptid : optId (normalizeItem qo seen counter).1 =
          (normalizeItem qo seen counter).2.1 := optId_of_getOpt hid
      have hqid := normalizeItem_qid qo seen counter
      have ihrest := ih (seen ++ [(normalizeItem qo seen counter).2.1])
        (normalizeItem qo seen counter).2.2
      constructor
      · intro r hr
        rw [normalizeLoop] at hr
        rcases List.mem_cons.mp hr with rfl | hmem
        · rw [hoptid]
          exact ⟨hid, hqid.2, hqid.1⟩
        · obtain ⟨h1, h2, h3⟩ := ihrest.1 r hmem
          exact ⟨h1, h2, fun hmem2 => h3 (List.mem_append.mpr (Or.inl hmem2))⟩
      · rw [normalizeLoop, List.map_cons]
        refine List.nodup_cons.mpr ⟨?_, ihrest.2⟩
        intro hmem
        obtain ⟨r, hr, hre⟩ := List.mem_map.mp hmem
        obtain ⟨_, _, h3⟩ := ihrest.1 r hr
        rw [hoptid] at hre
        exact h3 (List.mem_append.mpr (Or.inr (by simp [hre])))
    | none => exact ih seen counter
    | bool b => exact ih seen counter
    | int n => exact ih seen counter
    | str s => exact ih seen counter
    | list xs => exact ih seen counter

/-- C8: for every input value — non-list input, lists with non-record
elements, records with missing options, duplicate or missing ids — the
Normalizer (a total function of the embedded value universe, so it cannot
raise) returns records whose `id` fields are non-empty strings, pairwise
distinct within the pass. -/
theorem normalize_step1_questions_spec (v : Val) :
    (∀ r ∈ normalize_step1_questions v,
      objGetOpt r "id" = some (Val.str (optId r)) ∧ optId r ≠ "") ∧
    ((normalize_step1_questions v).map optId).Nodup := by
  cases v with
  | list qs =>
    have h := normalizeLoop_spec qs [] 1
    exact ⟨fun r hr => ⟨(h.1 r hr).1, (h.1 r hr).2.1⟩, h.2⟩
  | none => exact ⟨fun r hr => by simp [normalize_step1_questions] at hr, by simp [normalize_step1_questions]⟩
  | bool b => exact ⟨fun r hr => by simp [normalize_step1_questions] at hr, by simp [normalize_step1_questions]⟩
  | int n => exact ⟨fun r hr => by simp [normalize_step1_questions] at hr, by simp [normalize_step1_questions]⟩
  | str s => exact ⟨fun r hr => by simp [normalize_step1_questions] at hr, by simp [normalize_step1_questions]⟩
  | dict kvs => exact ⟨fun r hr => by simp [normalize_step1_questions] at hr, by simp [normalize_step1_questions]⟩

/-- Witness for C8 on a list with a duplicated id (the second record gets a
synthesized id). -/
theorem normalize_step1_questions_spec_witness :
    (objGetOpt ([("id", Val.str "z"), ("prompt", Val.str ""),
        ("options", Val.list [])] : Obj) "id" =
      some (Val.str (optId [("id", Val.str "z"), ("prompt", Val.str ""),
        ("options", Val.list [])])) ∧
     optId ([("id", Val.str "z"), ("prompt", Val.str ""),
        ("options", Val.list [])] : Obj) ≠ "") ∧
    ((normalize_step1_questions (Val.list [Val.dict [("id", Val.str "z")],
        Val.dict [("id", Val.str "z")]])).map optId).Nodup := by
  have h := normalize_step1_questions_spec
    (Val.list [Val.dict [("id", Val.str "z")], Val.dict [("id", Val.str "z")]])
  exact ⟨h.1 _ (by decide), h.2⟩

theorem normalizeItem_prompt (qo : Obj) (seen : List String) (counter : Nat) :
    objGetOpt (normalizeItem qo seen counter).1 "prompt" =
      some (Val.str (pyStrip (pyStr (pyOr (objGet qo "prompt")
        (pyOr (objGet qo "question") (Val.str "")))))) := by
  simp only [normalizeItem, List.cons_append, List.nil_append]
  rw [objGetOpt_cons_ne _ _ _ _ (by decide)]
  exact objGetOpt_cons_self _ _ _

/-- C6 (amended): the Normalizer applies Python truthiness to the raw field
values before any trimming: the prompt is `str()` of the first truthy value
among the `prompt` and `question` fields, trimmed afterwards, and `""` when
both are falsy.  In particular a whitespace-only `prompt` is truthy, wins,
and trims to the empty string — the alternate field is consulted only when
the raw `prompt` value is falsy (absent, `None`, `""`, `0`, `[]`, …). -/
theorem normalize_prompt_spec (qo : Obj) :
    ∃ r, (normalize_step1_questions (Val.list [Val.dict qo])).head? = some r ∧
      (truthy (objGet qo "prompt") = true →
        objGetOpt r "prompt" = some (Val.str (pyStrip (pyStr (objGet qo "prompt"))))) ∧
      (truthy (objGet qo "prompt") = false → truthy (objGet qo "question") = true →
        objGetOpt r "prompt" = some (Val.str (pyStrip (pyStr (objGet qo "question"))))) ∧
      (truthy (objGet qo "prompt") = false → truthy (objGet qo "question") = false →
        objGetOpt r "prompt" = some (Val.str "")) := by
  refine ⟨(normalizeItem qo [] 1).1, rfl, ?_, ?_, ?_⟩
  · intro hp
    rw [normalizeItem_prompt, pyOr, if_pos hp]
  · intro hp hq
    rw [normalizeItem_prompt]
    rw [show pyOr (objGet qo "prompt") (pyOr (objGet qo "question") (Val.str "")) =
      pyOr (objGet qo "question") (Val.str "") from by rw [pyOr, if_neg (by simp [hp])]]
    rw [pyOr, if_pos hq]
  · intro hp hq
    rw [normalizeItem_prompt]
    rw [show pyOr (objGet qo "prompt") (pyOr (objGet qo "question") (Val.str "")) =
      Val.str "" from by
        rw [pyOr, if_neg (by simp [hp]), pyOr, if_neg (by simp [hq])]]
    decide

/-- Witness for C6's amended theorem, exercising all three branches. -/
theorem normalize_prompt_spec_witness :
    (∃ r, (normalize_step1_questions (Val.list
        [Val.dict [("prompt", Val.str " Hi "), ("question", Val.str "Q")]])).head? = some r ∧
      objGetOpt r "prompt" = some (Val.str "Hi")) ∧
    (∃ r, (normalize_step1_questions (Val.list
        [Val.dict [("prompt", Val.str ""), ("question", Val.str " Q ")]])).head? = some r ∧
      objGetOpt r "prompt" = some (Val.str "Q")) ∧
    (∃ r, (normalize_step1_questions (Val.list [Val.dict []])).head? = some r ∧
      objGetOpt r "prompt" = some (Val.str "")) := by
  refine ⟨?_, ?_, ?_⟩
  · obtain ⟨r, hr, c1, _, _⟩ := normalize_prompt_spec
      [("prompt", Val.str " Hi "), ("question", Val.str "Q")]
    exact ⟨r, hr, (c1 (by decide)).trans (by decide)⟩
  · obtain ⟨r, hr, _, c2, _⟩ := normalize_prompt_spec
      [("prompt", Val.str ""), ("question", Val.str " Q ")]
    exact ⟨r, hr, ((c2 (by decide)) (by decide)).trans (by decide)⟩
  · obtain ⟨r, hr, _, _, c3⟩ := normalize_prompt_spec ([] : Obj)
    exact ⟨r, hr, (c3 (by decide)) (by decide)⟩

/-- C6 counterexample: with `prompt = " "` (whitespace-only, hence truthy)
and `question = "Hello"`, the Normalizer produces the empty prompt, not the
alternate field's trimmed value. -/
theorem normalize_whitespace_prompt_counterexample :
    (normalize_step1_questions (Val.list
        [Val.dict [("id", Val.str "x"), ("prompt", Val.str " "),
                   ("question", Val.str "Hello")]])).map (fun r => objGet r "prompt") =
      [Val.str ""] ∧
    (normalize_step1_questions (Val.list
        [Val.dict [("id", Val.str "x"), ("prompt", Val.str " "),
                   ("question", Val.str "Hello")]])).map (fun r => objGet r "prompt") ≠
      [Val.str "Hello"] := by
  constructor
  · decide
  · decide

/-! ### Primary-fill characterization -/

/-- Reference id-deduplication with the primary fill's exact bookkeeping:
membership is tested on `item.get("id")` and marked on
`item.get("id", "")`. -/
def dedupeById : List Obj → List Val → List Obj
  | [], _ => []
  | q :: rest, used =>
    if objGet q "id" ∈ used then dedupeById rest used
    else q :: dedupeById rest (used ++ [objGetD q "id" (Val.str "")])

/-- The used-id set after running the primary-fill inner loop. -/
def usedAfter : List Obj → List Val → List Val
  | [], used => used
  | q :: rest, used =>
    if objGet q "id" ∈ used then usedAfter rest used
    else usedAfter rest (used ++ [objGetD q "id" (Val.str "")])

theorem takeLoop_eq : ∀ (items : List Obj) (sel : List Obj) (used : List Val),
    takeLoop items (sel, used) = (sel ++ dedupeById items used, usedAfter items used) := by
  intro items
  induction items with
  | nil => intro sel used; simp [takeLoop, dedupeById, usedAfter]
  | cons q rest ih =>
    intro sel used
    rw [takeLoop, dedupeById, usedAfter]
    by_cases h : objGet q "id" ∈ used
    · rw [if_pos h, if_pos h, if_pos h, ih]
    · rw [if_neg h, if_neg h, if_neg h, ih]
      simp

theorem dedupeById_append : ∀ (xs ys : List Obj) (used : List Val),
    dedupeById (xs ++ ys) used =
      dedupeById xs used ++ dedupeById ys (usedAfter xs used) := by
  intro xs
  induction xs with
  | nil => intro ys used; simp [dedupeById, usedAfter]
  | cons q rest ih =>
    intro ys used
    rw [List.cons_append, dedupeById, dedupeById, usedAfter]
    by_cases h : objGet q "id" ∈ used
    · rw [if_pos h, if_pos h, if_pos h, ih]
    · rw [if_neg h, if_neg h, if_neg h, ih]
      simp

theorem usedAfter_append : ∀ (xs ys : List Obj) (used : List Val),
    usedAfter (xs ++ ys) used = usedAfter ys (usedAfter xs used) := by
  intro xs
  induction xs with
  | nil => intro ys used; simp [usedAfter]
  | cons q rest ih =>
    intro ys used
    rw [List.cons_append, usedAfter, usedAfter]
    by_cases h : objGet q "id" ∈ used
    · rw [if_pos h, if_pos h, ih]
    · rw [if_neg h, if_neg h, ih]

theorem primaryFill_foldl : ∀ (desired : List (String × Nat)) (qs : List Obj)
    (sel : List Obj) (used : List Val),
    desired.foldl (fun st cn => takeLoop ((bucketOf qs cn.1).take cn.2) st) (sel, used) =
      (sel ++ dedupeById ((desired.map (fun cn => (bucketOf qs cn.1).take cn.2)).flatten) used,
       usedAfter ((desired.map (fun cn => (bucketOf qs cn.1).take cn.2)).flatten) used) := by
  intro desired
  induction desired with
  | nil => intro qs sel used; simp [dedupeById, usedAfter]
  | cons cn rest ih =>
    intro qs sel used
    rw [List.foldl_cons, takeLoop_eq, ih, List.map_cons, List.flatten_cons,
      dedupeById_append, usedAfter_append]
    simp

/-- C4 (amended): the primary fill examines only the first `quota[c]`
elements of each category's bucket, in table order: its selection is
exactly the id-deduplication of the concatenated per-category bucket
prefixes.  A candidate skipped by the id-collision guard therefore leaves
its slot empty — later in-bucket candidates beyond the prefix are never
consulted as replacements. -/
theorem primaryFill_spec (desired : List (String × Nat)) (qs : List Obj) :
    primaryFill desired qs =
      (dedupeById ((desired.map (fun cn => (bucketOf qs cn.1).take cn.2)).flatten) [],
       usedAfter ((desired.map (fun cn => (bucketOf qs cn.1).take cn.2)).flatten) []) := by
  rw [primaryFill, primaryFill_foldl]
  simp

/-- C4 counterexample: with bucket `R = [x-id, x-id, y-id]` and quota
`R: 2`, only the slice `[x, x]` is examined: the duplicate is skipped and
`y` — later in the bucket, with an unused id, while only one item was taken
from the bucket — is not taken in its place. -/
theorem primaryFill_no_backfill_counterexample :
    ((primaryFill RIASEC_COVERAGE_REQUIRED
        [[("id", Val.str "x"), ("tags", Val.list [Val.str "R"])],
         [("id", Val.str "x"), ("tags", Val.list [Val.str "R"])],
         [("id", Val.str "y"), ("tags", Val.list [Val.str "R"])]]).1.map optId = ["x"]) ∧
    Val.str "y" ∉ (primaryFill RIASEC_COVERAGE_REQUIRED
        [[("id", Val.str "x"), ("tags", Val.list [Val.str "R"])],
         [("id", Val.str "x"), ("tags", Val.list [Val.str "R"])],
         [("id", Val.str "y"), ("tags", Val.list [Val.str "R"])]]).2 ∧
    (primaryFill RIASEC_COVERAGE_REQUIRED
        [[("id", Val.str "x"), ("tags", Val.list [Val.str "R"])],
         [("id", Val.str "x"), ("tags", Val.list [Val.str "R"])],
         [("id", Val.str "y"), ("tags", Val.list [Val.str "R"])]]).1.length < 2 := by
  refine ⟨?_, ?_, ?_⟩ <;> decide

/-! ### Counting through the allocator -/

theorem bucketOf_mem {qs : List Obj} {code : String} {q : Obj}
    (h : q ∈ bucketOf qs code) :
    extract_riasec_primary (objGet q "tags") = some code := by
  have := (List.mem_filter.mp h).2
  simpa using this

theorem dedupeById_sublist : ∀ (l : List Obj) (used : List Val),
    (dedupeById l used).Sublist l := by
  intro l
  induction l with
  | nil => intro used; simp [dedupeById]
  | cons q rest ih =>
    intro used
    rw [dedupeById]
    by_cases h : objGet q "id" ∈ used
    · rw [if_pos h]
      exact (ih used).cons q
    · rw [if_neg h]
      exact (ih _).cons₂ q

theorem countC_append (a b : List Obj) (c : String) :
    countC (a ++ b) c = countC a c + countC b c := by
  simp [countC, List.filter_append]

theorem countC_cons (q : Obj) (rest : List Obj) (c : String) :
    countC (q :: rest) c =
      (if extract_riasec_primary (objGet q "tags") = some c then 1 else 0) + countC rest c := by
  rw [countC, List.filter_cons]
  by_cases h : extract_riasec_primary (objGet q "tags") = some c
  · simp only [h, beq_self_eq_true, if_true, if_pos]
    rw [List.length_cons, countC]
    omega
  · have hb : (extract_riasec_primary (objGet q "tags") == some c) = false := by
      simp [h]
    simp only [hb, if_false, if_neg h, Bool.false_eq_true]
    rw [countC]
    omega

theorem countC_all_eq {ex : List Obj} {code : String}
    (h : ∀ q ∈ ex, extract_riasec_primary (objGet q "tags") = some code) (c : String) :
    countC ex c = if code = c then ex.length else 0 := by
  induction ex with
  | nil => simp [countC]
  | cons q rest ih =>
    have hq := h q (by simp)
    have hrest := ih (fun r hr => h r (by simp [hr]))
    rw [countC_cons, hq, hrest]
    by_cases hc : code = c
    · subst hc
      simp
      omega
    · have hne : ¬ (some code = some c) := by simp [hc]
      simp [hc, hne]

theorem countC_le_of_sublist {a b : List Obj} (h : a.Sublist b) (c : String) :
    countC a c ≤ countC b c :=
  List.Sublist.length_le (List.Sublist.filter _ h)

theorem countC_nil (c : String) : countC [] c = 0 := rfl

theorem take_bucket_all (qs : List Obj) (code : String) (need : Nat) :
    ∀ q ∈ (bucketOf qs code).take need,
      extract_riasec_primary (objGet q "tags") = some code := by
  intro q hq
  exact bucketOf_mem (List.mem_of_mem_take hq)

theorem countC_take_bucket_le (qs : List Obj) (code : String) (need : Nat) (c : String) :
    countC ((bucketOf qs code).take need) c ≤ if code = c then need else 0 := by
  rw [countC_all_eq (take_bucket_all qs code need) c]
  by_cases h : code = c
  · simp [h, List.length_take]
  · simp [h]

theorem objGet_objErase_ne (o : Obj) (k k' : String) (h : k' ≠ k) :
    objGet (objErase o k) k' = objGet o k' := by
  rw [objGet, objGetOpt_objErase_ne o k k' h, objGet]

theorem sanitizeQuestion_tags (q : Obj) :
    objGet (sanitizeQuestion q) "tags" = objGet q "tags" := by
  simp only [sanitizeQuestion]
  rw [objGet_objInsert_ne _ _ _ _ (by decide)]
  split
  · exact objGet_objInsert_ne _ _ _ _ (by decide)
  · rw [objGet_objErase_ne _ _ _ (by decide)]
    exact objGet_objInsert_ne _ _ _ _ (by decide)
  · exact objGet_objInsert_ne _ _ _ _ (by decide)

theorem sanitizeQuestion_id (q : Obj) :
    objGet (sanitizeQuestion q) "id" = objGet q "id" := by
  simp only [sanitizeQuestion]
  rw [objGet_objInsert_ne _ _ _ _ (by decide)]
  split
  · exact objGet_objInsert_ne _ _ _ _ (by decide)
  · rw [objGet_objErase_ne _ _ _ (by decide)]
    exact objGet_objInsert_ne _ _ _ _ (by decide)
  · exact objGet_objInsert_ne _ _ _ _ (by decide)

theorem countC_map_sanitize (sel : List Obj) (c : String) :
    countC (sel.map sanitizeQuestion) c = countC sel c := by
  induction sel with
  | nil => rfl
  | cons q rest ih =>
    rw [List.map_cons, countC_cons, countC_cons, sanitizeQuestion_tags, ih]

theorem ids_map_sanitize (sel : List Obj) :
    (sel.map sanitizeQuestion).map (fun q => objGet q "id") =
      sel.map (fun q => objGet q "id") := by
  rw [List.map_map]
  exact List.map_congr_left (fun q _ => sanitizeQuestion_id q)

theorem topUpWhile_eq_of_ge (total : Nat) (pools : List (String × List Obj)) (fuel : Nat)
    (st : List Obj × List Val) (h : ¬ st.1.length < total) :
    topUpWhile total pools fuel st = st := by
  cases fuel with
  | zero => rfl
  | succ fuel => rw [topUpWhile, if_neg h]

theorem trimSurplus_eq_of_le (desired : List (String × Nat)) (total : Nat)
    (sel : List Obj) (h : ¬ sel.length > total) :
    trimSurplus desired total sel = sel := by
  rw [trimSurplus, if_neg h]

theorem primaryFill_riasec_counts (qs : List Obj) (c : String) :
    countC (primaryFill RIASEC_COVERAGE_REQUIRED qs).1 c ≤
      (if "R" = c then 2 else 0) + (if "I" = c then 2 else 0) + (if "A" = c then 2 else 0) +
      (if "S" = c then 2 else 0) + (if "E" = c then 1 else 0) + (if "C" = c then 1 else 0) := by
  have hsub : (primaryFill RIASEC_COVERAGE_REQUIRED qs).1.Sublist
      ((RIASEC_COVERAGE_REQUIRED.map (fun cn => (bucketOf qs cn.1).take cn.2)).flatten) := by
    rw [primaryFill_spec]
    exact dedupeById_sublist _ _
  refine le_trans (countC_le_of_sublist hsub c) ?_
  simp only [RIASEC_COVERAGE_REQUIRED, List.map_cons, List.map_nil, List.flatten_cons,
    List.flatten_nil, List.append_nil, countC_append]
  have hR := countC_take_bucket_le qs "R" 2 c
  have hI := countC_take_bucket_le qs "I" 2 c
  have hA := countC_take_bucket_le qs "A" 2 c
  have hS := countC_take_bucket_le qs "S" 2 c
  have hE := countC_take_bucket_le qs "E" 1 c
  have hC := countC_take_bucket_le qs "C" 1 c
  omega

/-- Membership in one of the six RIASEC classes. -/
def riasecClassified (sel : List Obj) : Prop :=
  ∀ q ∈ sel,
    extract_riasec_primary (objGet q "tags") = some "R" ∨
    extract_riasec_primary (objGet q "tags") = some "I" ∨
    extract_riasec_primary (objGet q "tags") = some "A" ∨
    extract_riasec_primary (objGet q "tags") = some "S" ∨
    extract_riasec_primary (objGet q "tags") = some "E" ∨
    extract_riasec_primary (objGet q "tags") = some "C"

theorem primaryFill_riasec_classified (qs : List Obj) :
    riasecClassified (primaryFill RIASEC_COVERAGE_REQUIRED qs).1 := by
  intro q hq
  rw [primaryFill_spec] at hq
  have hmem := (dedupeById_sublist _ _).subset hq
  simp only [RIASEC_COVERAGE_REQUIRED, List.map_cons, List.map_nil, List.flatten_cons,
    List.flatten_nil, List.append_nil, List.mem_append] at hmem
  rcases hmem with h | h | h | h | h | h
  · exact Or.inl (take_bucket_all qs "R" 2 q h)
  · exact Or.inr (Or.inl (take_bucket_all qs "I" 2 q h))
  · exact Or.inr (Or.inr (Or.inl (take_bucket_all qs "A" 2 q h)))
  · exact Or.inr (Or.inr (Or.inr (Or.inl (take_bucket_all qs "S" 2 q h))))
  · exact Or.inr (Or.inr (Or.inr (Or.inr (Or.inl (take_bucket_all qs "E" 1 q h)))))
  · exact Or.inr (Or.inr (Or.inr (Or.inr (Or.inr (take_bucket_all qs "C" 1 q h)))))

theorem length_eq_sum_countC (sel : List Obj) (h : riasecClassified sel) :
    sel.length = countC sel "R" + countC sel "I" + countC sel "A" + countC sel "S" +
      countC sel "E" + countC sel "C" := by
  induction sel with
  | nil => simp [countC]
  | cons q rest ih =>
    have hrest := ih (fun r hr => h r (by simp [hr]))
    have hq := h q (by simp)
    rw [List.length_cons, countC_cons, countC_cons, countC_cons, countC_cons, countC_cons,
      countC_cons]
    rcases hq with hq | hq | hq | hq | hq | hq <;> rw [hq] <;> simp <;> omega

theorem pool_spec (p : StudentProfile) :
    ∀ code ∈ (["R", "I", "A", "S", "E", "C"] : List String),
      (poolGet (fallback_by_riasec p) code).length = 2 ∧
      (∀ c ∈ poolGet (fallback_by_riasec p) code,
        extract_riasec_primary (objGet c "tags") = some code) := by
  intro code hcode
  fin_cases hcode <;>
    refine ⟨rfl, ?_⟩ <;>
    · intro c hc
      simp [poolGet, fallback_by_riasec, List.find?] at hc
      rcases hc with rfl | rfl <;> rfl

theorem deficitPool_spec (code : String) :
    ∀ (pool : List Obj) (deficit : Nat) (sel : List Obj) (used : List Val),
      (∀ c ∈ pool, extract_riasec_primary (objGet c "tags") = some code) →
      ∃ ex,
        deficitPool pool deficit (sel, used) =
          (sel ++ ex, used ++ ex.map (fun q => objGet q "id")) ∧
        ex.length = min deficit pool.length ∧
        (∀ q ∈ ex, extract_riasec_primary (objGet q "tags") = some code) ∧
        (∀ q ∈ ex, ∃ c ∈ pool, ∃ v, q = objInsert c "id" v) ∧
        ((sel.map (fun q => objGet q "id")) ⊆ used →
          (sel.map (fun q => objGet q "id")).Nodup →
          ((sel ++ ex).map (fun q => objGet q "id")) ⊆
              (used ++ ex.map (fun q => objGet q "id")) ∧
            ((sel ++ ex).map (fun q => objGet q "id")).Nodup) := by
  intro pool
  induction pool with
  | nil =>
    intro deficit sel used _
    refine ⟨[], by simp [deficitPool], by simp, by simp, by simp, ?_⟩
    intro hsub hnd
    simpa using ⟨hsub, hnd⟩
  | cons c rest ih =>
    intro deficit sel used htags
    cases deficit with
    | zero =>
      refine ⟨[], by simp [deficitPool], by simp, by simp, by simp, ?_⟩
      intro hsub hnd
      simpa using ⟨hsub, hnd⟩
    | succ d =>
      have hstep : deficitPool (c :: rest) (d + 1) (sel, used) =
          deficitPool rest d
            (sel ++ [objInsert c "id" (freshSuffix (objGet c "id") used)],
             used ++ [freshSuffix (objGet c "id") used]) := by
        rw [deficitPool, if_neg (by omega)]
        simp
      set newId := freshSuffix (objGet c "id") used with hnewId
      obtain ⟨ex', heq, hlen, htag', hprov', hinv'⟩ :=
        ih d (sel ++ [objInsert c "id" newId]) (used ++ [newId])
          (fun q hq => htags q (by simp [hq]))
      have hc2id : objGet (objInsert c "id" newId) "id" = newId := objGet_objInsert_self _ _ _
      have hsel_re : sel ++ (objInsert c "id" newId) :: ex' =
          (sel ++ [objInsert c "id" newId]) ++ ex' := by simp
      have hused_re : used ++ ((objInsert c "id" newId) :: ex').map (fun q => objGet q "id") =
          (used ++ [newId]) ++ ex'.map (fun q => objGet q "id") := by
        simp [hc2id]
      refine ⟨objInsert c "id" newId :: ex', ?_, ?_, ?_, ?_, ?_⟩
      · rw [hstep, heq, hsel_re, hused_re]
      · simp only [List.length_cons, hlen]
        omega
      · intro q hq
        rcases List.mem_cons.mp hq with rfl | hq2
        · rw [objGet_objInsert_ne _ _ _ _ (by decide)]
          exact htags c (by simp)
        · exact htag' q hq2
      · intro q hq
        rcases List.mem_cons.mp hq with rfl | hq2
        · exact ⟨c, by simp, newId, rfl⟩
        · obtain ⟨c', hc', v, hv⟩ := hprov' q hq2
          exact ⟨c', by simp [hc'], v, hv⟩
      · intro hsub hnd
        have hfresh : newId ∉ used := freshSuffix_fresh _ _
        have hsub2 : ((sel ++ [objInsert c "id" newId]).map (fun q => objGet q "id")) ⊆
            used ++ [newId] := by
          simp only [List.map_append, List.map_cons, List.map_nil, hc2id]
          intro x hx
          rcases List.mem_append.mp hx with hx | hx
          · exact List.mem_append.mpr (Or.inl (hsub hx))
          · exact List.mem_append.mpr (Or.inr hx)
        have hnd2 : ((sel ++ [objInsert c "id" newId]).map (fun q => objGet q "id")).Nodup := by
          simp only [List.map_append, List.map_cons, List.map_nil, hc2id]
          refine List.Nodup.append hnd (by simp) ?_
          intro x hx hx2
          simp only [List.mem_singleton] at hx2
          subst hx2
          exact hfresh (hsub hx)
        obtain ⟨ha, hb⟩ := hinv' hsub2 hnd2
        rw [hsel_re, hused_re]
        exact ⟨ha, hb⟩

theorem deficit_step (p : StudentProfile) (code : String) (need : Nat)
    (hcode : code ∈ (["R", "I", "A", "S", "E", "C"] : List String))
    (hneed : need ≤ 2) (sel : List Obj) (used : List Val)
    (hcnt : countC sel code ≤ need) :
    ∃ ex,
      deficitPool (poolGet (fallback_by_riasec p) code) (need - countC sel code) (sel, used) =
        (sel ++ ex, used ++ ex.map (fun q => objGet q "id")) ∧
      countC (sel ++ ex) code = need ∧
      (∀ c, c ≠ code → countC (sel ++ ex) c = countC sel c) ∧
      (∀ q ∈ ex, ∃ c ∈ poolGet (fallback_by_riasec p) code, ∃ v, q = objInsert c "id" v) ∧
      (∀ q ∈ ex, extract_riasec_primary (objGet q "tags") = some code) ∧
      ((sel.map (fun q => objGet q "id")) ⊆ used →
        (sel.map (fun q => objGet q "id")).Nodup →
        ((sel ++ ex).map (fun q => objGet q "id")) ⊆
            (used ++ ex.map (fun q => objGet q "id")) ∧
          ((sel ++ ex).map (fun q => objGet q "id")).Nodup) := by
  obtain ⟨hlen2, htags⟩ := pool_spec p code hcode
  obtain ⟨ex, heq, hlen, htag, hprov, hinv⟩ :=
    deficitPool_spec code _ (need - countC sel code) sel used htags
  refine ⟨ex, heq, ?_, ?_, hprov, htag, hinv⟩
  · rw [countC_append, countC_all_eq htag code, if_pos rfl, hlen, hlen2]
    omega
  · intro c hc
    rw [countC_append, countC_all_eq htag c, if_neg (fun h => hc h.symm)]
    omega

theorem deficitFill_riasec (p : StudentProfile) (sel : List Obj) (used : List Val)
    (hR : countC sel "R" ≤ 2) (hI : countC sel "I" ≤ 2) (hA : countC sel "A" ≤ 2)
    (hS : countC sel "S" ≤ 2) (hE : countC sel "E" ≤ 1) (hC : countC sel "C" ≤ 1) :
    ∃ ex,
      deficitFill RIASEC_COVERAGE_REQUIRED (fallback_by_riasec p) (sel, used) =
        (sel ++ ex, used ++ ex.map (fun q => objGet q "id")) ∧
      countC (sel ++ ex) "R" = 2 ∧ countC (sel ++ ex) "I" = 2 ∧ countC (sel ++ ex) "A" = 2 ∧
      countC (sel ++ ex) "S" = 2 ∧ countC (sel ++ ex) "E" = 1 ∧ countC (sel ++ ex) "C" = 1 ∧
      (∀ q ∈ ex, ∃ code ∈ (["R", "I", "A", "S", "E", "C"] : List String),
        ∃ c ∈ poolGet (fallback_by_riasec p) code, ∃ v, q = objInsert c "id" v) ∧
      (riasecClassified sel → riasecClassified (sel ++ ex)) ∧
      ((sel.map (fun q => objGet q "id")) ⊆ used →
        (sel.map (fun q => objGet q "id")).Nodup →
        ((sel ++ ex).map (fun q => objGet q "id")).Nodup) := by
  obtain ⟨e1, q1, c1R, c1o, p1, t1, i1⟩ :=
    deficit_step p "R" 2 (by decide) (by decide) sel used hR
  obtain ⟨e2, q2, c2I, c2o, p2, t2, i2⟩ :=
    deficit_step p "I" 2 (by decide) (by decide) (sel ++ e1) (used ++ e1.map (fun q => objGet q "id"))
      (by rw [c1o "I" (by decide)]; exact hI)
  obtain ⟨e3, q3, c3A, c3o, p3, t3, i3⟩ :=
    deficit_step p "A" 2 (by decide) (by decide) ((sel ++ e1) ++ e2)
      ((used ++ e1.map (fun q => objGet q "id")) ++ e2.map (fun q => objGet q "id"))
      (by rw [c2o "A" (by decide), c1o "A" (by decide)]; exact hA)
  obtain ⟨e4, q4, c4S, c4o, p4, t4, i4⟩ :=
    deficit_step p "S" 2 (by decide) (by decide) (((sel ++ e1) ++ e2) ++ e3)
      (((used ++ e1.map (fun q => objGet q "id")) ++ e2.map (fun q => objGet q "id")) ++
        e3.map (fun q => objGet q "id"))
      (by rw [c3o "S" (by decide), c2o "S" (by decide), c1o "S" (by decide)]; exact hS)
  obtain ⟨e5, q5, c5E, c5o, p5, t5, i5⟩ :=
    deficit_step p "E" 1 (by decide) (by decide) ((((sel ++ e1) ++ e2) ++ e3) ++ e4)
      ((((used ++ e1.map (fun q => objGet q "id")) ++ e2.map (fun q => objGet q "id")) ++
        e3.map (fun q => objGet q "id")) ++ e4.map (fun q => objGet q "id"))
      (by rw [c4o "E" (by decide), c3o "E" (by decide), c2o "E" (by decide),
        c1o "E" (by decide)]; exact hE)
  obtain ⟨e6, q6, c6C, c6o, p6, t6, i6⟩ :=
    deficit_step p "C" 1 (by decide) (by decide) (((((sel ++ e1) ++ e2) ++ e3) ++ e4) ++ e5)
      (((((used ++ e1.map (fun q => objGet q "id")) ++ e2.map (fun q => objGet q "id")) ++
        e3.map (fun q => objGet q "id")) ++ e4.map (fun q => objGet q "id")) ++
        e5.map (fun q => objGet q "id"))
      (by rw [c5o "C" (by decide), c4o "C" (by decide), c3o "C" (by decide),
        c2o "C" (by decide), c1o "C" (by decide)]; exact hC)
  refine ⟨e1 ++ e2 ++ e3 ++ e4 ++ e5 ++ e6, ?_, ?_, ?_, ?_, ?_, ?_, ?_, ?_, ?_, ?_⟩
  · simp only [deficitFill, RIASEC_COVERAGE_REQUIRED, List.foldl_cons, List.foldl_nil]
    rw [q1, q2, q3, q4, q5, q6]
    simp [List.append_assoc, List.map_append]
  · have := c6o "R" (by decide)
    rw [c5o "R" (by decide), c4o "R" (by decide), c3o "R" (by decide),
      c2o "R" (by decide)] at this
    rw [show sel ++ (e1 ++ e2 ++ e3 ++ e4 ++ e5 ++ e6) =
      (((((sel ++ e1) ++ e2) ++ e3) ++ e4) ++ e5) ++ e6 by simp [List.append_assoc]]
    rw [this, c1R]
  · have := c6o "I" (by decide)
    rw [c5o "I" (by decide), c4o "I" (by decide), c3o "I" (by decide)] at this
    rw [show sel ++ (e1 ++ e2 ++ e3 ++ e4 ++ e5 ++ e6) =
      (((((sel ++ e1) ++ e2) ++ e3) ++ e4) ++ e5) ++ e6 by simp [List.append_assoc]]
    rw [this, c2I]
  · have := c6o "A" (by decide)
    rw [c5o "A" (by decide), c4o "A" (by decide)] at this
    rw [show sel ++ (e1 ++ e2 ++ e3 ++ e4 ++ e5 ++ e6) =
      (((((sel ++ e1) ++ e2) ++ e3) ++ e4) ++ e5) ++ e6 by simp [List.append_assoc]]
    rw [this, c3A]
  · have := c6o "S" (by decide)
    rw [c5o "S" (by decide)] at this
    rw [show sel ++ (e1 ++ e2 ++ e3 ++ e4 ++ e5 ++ e6) =
      (((((sel ++ e1) ++ e2) ++ e3) ++ e4) ++ e5) ++ e6 by simp [List.append_assoc]]
    rw [this, c4S]
  · have := c6o "E" (by decide)
    rw [show sel ++ (e1 ++ e2 ++ e3 ++ e4 ++ e5 ++ e6) =
      (((((sel ++ e1) ++ e2) ++ e3) ++ e4) ++ e5) ++ e6 by simp [List.append_assoc]]
    rw [this, c5E]
  · rw [show sel ++ (e1 ++ e2 ++ e3 ++ e4 ++ e5 ++ e6) =
      (((((sel ++ e1) ++ e2) ++ e3) ++ e4) ++ e5) ++ e6 by simp [List.append_assoc]]
    exact c6C
  · intro q hq
    simp only [List.mem_append] at hq
    rcases hq with ((((hq | hq) | hq) | hq) | hq) | hq
    · obtain ⟨c, hc, v, hv⟩ := p1 q hq
      exact ⟨"R", by decide, c, hc, v, hv⟩
    · obtain ⟨c, hc, v, hv⟩ := p2 q hq
      exact ⟨"I", by decide, c, hc, v, hv⟩
    · obtain ⟨c, hc, v, hv⟩ := p3 q hq
      exact ⟨"A", by decide, c, hc, v, hv⟩
    · obtain ⟨c, hc, v, hv⟩ := p4 q hq
      exact ⟨"S", by decide, c, hc, v, hv⟩
    · obtain ⟨c, hc, v, hv⟩ := p5 q hq
      exact ⟨"E", by decide, c, hc, v, hv⟩
    · obtain ⟨c, hc, v, hv⟩ := p6 q hq
      exact ⟨"C", by decide, c, hc, v, hv⟩
  · intro hcl q hq
    simp only [List.mem_append] at hq
    rcases hq with hq | ((((hq | hq) | hq) | hq) | hq) | hq
    · exact hcl q hq
    · exact Or.inl (t1 q hq)
    · exact Or.inr (Or.inl (t2 q hq))
    · exact Or.inr (Or.inr (Or.inl (t3 q hq)))
    · exact Or.inr (Or.inr (Or.inr (Or.inl (t4 q hq))))
    · exact Or.inr (Or.inr (Or.inr (Or.inr (Or.inl (t5 q hq)))))
    · exact Or.inr (Or.inr (Or.inr (Or.inr (Or.inr (t6 q hq)))))
  · intro hsub hnd
    obtain ⟨s1, n1⟩ := i1 hsub hnd
    obtain ⟨s2, n2⟩ := i2 s1 n1
    obtain ⟨s3, n3⟩ := i3 s2 n2
    obtain ⟨s4, n4⟩ := i4 s3 n3
    obtain ⟨s5, n5⟩ := i5 s4 n4
    obtain ⟨s6, n6⟩ := i6 s5 n5
    rw [show sel ++ (e1 ++ e2 ++ e3 ++ e4 ++ e5 ++ e6) =
      (((((sel ++ e1) ++ e2) ++ e3) ++ e4) ++ e5) ++ e6 by simp [List.append_assoc]]
    exact n6

theorem objGetD_eq_objGet_of_isSome {q : Obj} {k : String}
    (h : (objGetOpt q k).isSome) : objGetD q k (Val.str "") = objGet q k := by
  cases ho : objGetOpt q k with
  | none => rw [ho] at h; cases h
  | some v => rw [objGetD, objGet, ho]; rfl

theorem usedAfter_mono : ∀ (l : List Obj) (used : List Val), used ⊆ usedAfter l used := by
  intro l
  induction l with
  | nil => intro used; rw [usedAfter]; exact fun x hx => hx
  | cons q rest ih =>
    intro used
    rw [usedAfter]
    by_cases h : objGet q "id" ∈ used
    · rw [if_pos h]; exact ih used
    · rw [if_neg h]
      exact List.Subset.trans (List.subset_append_left _ _) (ih _)

theorem dedupe_inv : ∀ (l : List Obj) (used : List Val),
    (∀ q ∈ l, (objGetOpt q "id").isSome) →
    (∀ x ∈ (dedupeById l used).map (fun q => objGet q "id"),
      x ∈ usedAfter l used ∧ x ∉ used) ∧
    ((dedupeById l used).map (fun q => objGet q "id")).Nodup := by
  intro l
  induction l with
  | nil => intro used _; exact ⟨by simp [dedupeById], by simp [dedupeById]⟩
  | cons q rest ih =>
    intro used hid
    rw [dedupeById, usedAfter]
    by_cases h : objGet q "id" ∈ used
    · rw [if_pos h, if_pos h]
      exact ih used (fun r hr => hid r (by simp [hr]))
    · rw [if_neg h, if_neg h]
      rw [objGetD_eq_objGet_of_isSome (hid q (by simp))]
      have ihrest := ih (used ++ [objGet q "id"]) (fun r hr => hid r (by simp [hr]))
      constructor
      · intro x hx
        rw [List.map_cons] at hx
        rcases List.mem_cons.mp hx with rfl | hx2
        · exact ⟨usedAfter_mono _ _ (by simp), h⟩
        · obtain ⟨ha, hb⟩ := ihrest.1 x hx2
          exact ⟨ha, fun hmem => hb (List.mem_append.mpr (Or.inl hmem))⟩
      · rw [List.map_cons]
        refine List.nodup_cons.mpr ⟨?_, ihrest.2⟩
        intro hmem
        obtain ⟨_, hb⟩ := ihrest.1 _ hmem
        exact hb (by simp)

theorem primaryFill_inv (qs : List Obj)
    (hid : ∀ q ∈ qs, (objGetOpt q "id").isSome) :
    ((primaryFill RIASEC_COVERAGE_REQUIRED qs).1.map (fun q => objGet q "id")) ⊆
      (primaryFill RIASEC_COVERAGE_REQUIRED qs).2 ∧
    ((primaryFill RIASEC_COVERAGE_REQUIRED qs).1.map (fun q => objGet q "id")).Nodup := by
  rw [primaryFill_spec]
  have hidL : ∀ q ∈ ((RIASEC_COVERAGE_REQUIRED.map
      (fun cn => (bucketOf qs cn.1).take cn.2)).flatten), (objGetOpt q "id").isSome := by
    intro q hq
    simp only [List.mem_flatten, List.mem_map] at hq
    obtain ⟨l, ⟨cn, _, rfl⟩, hql⟩ := hq
    exact hid q (List.mem_of_mem_filter (List.mem_of_mem_take hql))
  have h := dedupe_inv _ [] hidL
  exact ⟨fun x hx => (h.1 x hx).1, h.2⟩

theorem enforce_main (qs : List Obj) (p : StudentProfile) :
    ∃ ex : List Obj,
      enforce_riasec_distribution qs RIASEC_COVERAGE_REQUIRED p =
        ((primaryFill RIASEC_COVERAGE_REQUIRED qs).1 ++ ex).map sanitizeQuestion ∧
      (∀ q ∈ ex, ∃ code ∈ (["R", "I", "A", "S", "E", "C"] : List String),
        ∃ c ∈ poolGet (fallback_by_riasec p) code, ∃ v, q = objInsert c "id" v) ∧
      countC ((primaryFill RIASEC_COVERAGE_REQUIRED qs).1 ++ ex) "R" = 2 ∧
      countC ((primaryFill RIASEC_COVERAGE_REQUIRED qs).1 ++ ex) "I" = 2 ∧
      countC ((primaryFill RIASEC_COVERAGE_REQUIRED qs).1 ++ ex) "A" = 2 ∧
      countC ((primaryFill RIASEC_COVERAGE_REQUIRED qs).1 ++ ex) "S" = 2 ∧
      countC ((primaryFill RIASEC_COVERAGE_REQUIRED qs).1 ++ ex) "E" = 1 ∧
      countC ((primaryFill RIASEC_COVERAGE_REQUIRED qs).1 ++ ex) "C" = 1 ∧
      ((primaryFill RIASEC_COVERAGE_REQUIRED qs).1 ++ ex).length = 10 ∧
      ((∀ q ∈ qs, (objGetOpt q "id").isSome) →
        (((primaryFill RIASEC_COVERAGE_REQUIRED qs).1 ++ ex).map
          (fun q => objGet q "id")).Nodup) := by
  have hR : countC (primaryFill RIASEC_COVERAGE_REQUIRED qs).1 "R" ≤ 2 := by
    have := primaryFill_riasec_counts qs "R"
    simpa using this
  have hI : countC (primaryFill RIASEC_COVERAGE_REQUIRED qs).1 "I" ≤ 2 := by
    have := primaryFill_riasec_counts qs "I"
    simpa using this
  have hA : countC (primaryFill RIASEC_COVERAGE_REQUIRED qs).1 "A" ≤ 2 := by
    have := primaryFill_riasec_counts qs "A"
    simpa using this
  have hS : countC (primaryFill RIASEC_COVERAGE_REQUIRED qs).1 "S" ≤ 2 := by
    have := primaryFill_riasec_counts qs "S"
    simpa using this
  have hE : countC (primaryFill RIASEC_COVERAGE_REQUIRED qs).1 "E" ≤ 1 := by
    have := primaryFill_riasec_counts qs "E"
    simpa using this
  have hC : countC (primaryFill RIASEC_COVERAGE_REQUIRED qs).1 "C" ≤ 1 := by
    have := primaryFill_riasec_counts qs "C"
    simpa using this
  obtain ⟨ex, heq, cR, cI, cA, cS, cE, cC, hprov, hclass, hinv⟩ :=
    deficitFill_riasec p (primaryFill RIASEC_COVERAGE_REQUIRED qs).1
      (primaryFill RIASEC_COVERAGE_REQUIRED qs).2 hR hI hA hS hE hC
  have hlen : ((primaryFill RIASEC_COVERAGE_REQUIRED qs).1 ++ ex).length = 10 := by
    rw [length_eq_sum_countC _ (hclass (primaryFill_riasec_classified qs)),
      cR, cI, cA, cS, cE, cC]
  refine ⟨ex, ?_, hprov, cR, cI, cA, cS, cE, cC, hlen, ?_⟩
  · simp only [enforce_riasec_distribution]
    have htot : ((RIASEC_COVERAGE_REQUIRED.map (fun cn => cn.2)).sum) = 10 := by decide
    rw [htot]
    have heq2 : deficitFill RIASEC_COVERAGE_REQUIRED (fallback_by_riasec p)
        (primaryFill RIASEC_COVERAGE_REQUIRED qs) =
        ((primaryFill RIASEC_COVERAGE_REQUIRED qs).1 ++ ex,
         (primaryFill RIASEC_COVERAGE_REQUIRED qs).2 ++
           ex.map (fun q => objGet q "id")) := heq
    rw [heq2]
    rw [topUpWhile_eq_of_ge _ _ _ _ (by simp only [hlen]; omega)]
    rw [show (((primaryFill RIASEC_COVERAGE_REQUIRED qs).1 ++ ex,
        (primaryFill RIASEC_COVERAGE_REQUIRED qs).2 ++
          ex.map (fun q => objGet q "id")).1) =
      (primaryFill RIASEC_COVERAGE_REQUIRED qs).1 ++ ex from rfl]
    rw [trimSurplus_eq_of_le _ _ _ (by rw [hlen]; omega)]
    rw [show (10 : Nat) = (((primaryFill RIASEC_COVERAGE_REQUIRED qs).1 ++ ex).map
      sanitizeQuestion).length by rw [List.length_map, hlen], List.take_length]
  · intro hid
    obtain ⟨hsub, hnd⟩ := primaryFill_inv qs hid
    exact hinv hsub hnd

/-- C1: for every candidate list and student context, the allocator run with
the default quota table (`R:2, I:2, A:2, S:2, E:1, C:1`) and the built-in
per-category fallback bank returns exactly 10 questions, and for every
category the number of output items whose primary category (as extracted by
the Classifier) equals that category is exactly its quota. -/
theorem enforce_riasec_distribution_spec (qs : List Obj) (p : StudentProfile) :
    (enforce_riasec_distribution qs RIASEC_COVERAGE_REQUIRED p).length = 10 ∧
    ∀ cn ∈ RIASEC_COVERAGE_REQUIRED,
      countC (enforce_riasec_distribution qs RIASEC_COVERAGE_REQUIRED p) cn.1 = cn.2 := by
  obtain ⟨ex, heq, _, cR, cI, cA, cS, cE, cC, hlen, _⟩ := enforce_main qs p
  rw [heq]
  constructor
  · rw [List.length_map, hlen]
  · intro cn hcn
    fin_cases hcn
    · simpa only [countC_map_sanitize] using cR
    · simpa only [countC_map_sanitize] using cI
    · simpa only [countC_map_sanitize] using cA
    · simpa only [countC_map_sanitize] using cS
    · simpa only [countC_map_sanitize] using cE
    · simpa only [countC_map_sanitize] using cC

/-- Witness for C1 at the empty candidate list and an empty profile. -/
theorem enforce_riasec_distribution_spec_witness :
    (enforce_riasec_distribution [] RIASEC_COVERAGE_REQUIRED
      ⟨Val.none, Val.none, []⟩).length = 10 ∧
    countC (enforce_riasec_distribution [] RIASEC_COVERAGE_REQUIRED
      ⟨Val.none, Val.none, []⟩) "R" = 2 := by
  have h := enforce_riasec_distribution_spec [] ⟨Val.none, Val.none, []⟩
  exact ⟨h.1, h.2 ("R", 2) (by decide)⟩

/-- C10: for every candidate list whose records carry non-empty string ids,
the allocator's output — before shuffling and resequencing — already has
pairwise distinct question ids (the primary fill skips used ids and every
fallback item receives a collision-free id). -/
theorem enforce_ids_nodup (qs : List Obj) (p : StudentProfile)
    (hid : ∀ q ∈ qs, ∃ s, objGetOpt q "id" = some (Val.str s) ∧ s ≠ "") :
    ((enforce_riasec_distribution qs RIASEC_COVERAGE_REQUIRED p).map
      (fun q => objGet q "id")).Nodup := by
  obtain ⟨ex, heq, _, _, _, _, _, _, _, _, hnd⟩ := enforce_main qs p
  rw [heq, ids_map_sanitize]
  refine hnd (fun q hq => ?_)
  obtain ⟨s, hs, _⟩ := hid q hq
  rw [hs]
  rfl

/-- Witness for C10 at a concrete two-candidate list. -/
theorem enforce_ids_nodup_witness :
    ((enforce_riasec_distribution
        [[("id", Val.str "x"), ("tags", Val.list [Val.str "R"])],
         [("id", Val.str "y"), ("tags", Val.list [Val.str "S"])]]
        RIASEC_COVERAGE_REQUIRED ⟨Val.none, Val.none, []⟩).map
      (fun q => objGet q "id")).Nodup := by
  refine enforce_ids_nodup _ _ ?_
  intro q hq
  rcases List.mem_cons.mp hq with rfl | hq2
  · exact ⟨"x", rfl, by decide⟩
  · rcases List.mem_cons.mp hq2 with rfl | hq3
    · exact ⟨"y", rfl, by decide⟩
    · simp at hq3

theorem freshSuffix_eq_self {cid : Val} {used : List Val} (h : cid ∉ used) :
    freshSuffix cid used = cid := by
  rw [freshSuffix, freshSuffixAux, if_neg h]

theorem deficitPool_zero : ∀ (pool : List Obj) (st : List Obj × List Val),
    deficitPool pool 0 st = st := by
  intro pool st
  cases pool with
  | nil => rfl
  | cons c rest =>
    obtain ⟨sel, used⟩ := st
    rw [deficitPool, if_pos rfl]

theorem deficitPool_pair (c1 c2 : Obj) (i1 i2 : Val) (sel : List Obj) (used : List Val)
    (h1 : objGet c1 "id" = i1) (h2 : objGet c2 "id" = i2)
    (he1 : objInsert c1 "id" i1 = c1) (he2 : objInsert c2 "id" i2 = c2)
    (hn1 : i1 ∉ used) (hn2 : i2 ∉ used ++ [i1]) :
    deficitPool [c1, c2] 2 (sel, used) = ((sel ++ [c1]) ++ [c2], (used ++ [i1]) ++ [i2]) ∧
    deficitPool [c1, c2] 1 (sel, used) = (sel ++ [c1], used ++ [i1]) := by
  have hf1 : freshSuffix (objGet c1 "id") used = i1 := by
    rw [h1]; exact freshSuffix_eq_self hn1
  have hf2 : freshSuffix (objGet c2 "id") (used ++ [i1]) = i2 := by
    rw [h2]; exact freshSuffix_eq_self hn2
  constructor
  · rw [deficitPool, if_neg (by omega)]
    simp only [hf1, he1]
    rw [show (2 - 1 : Nat) = 1 from rfl, deficitPool, if_neg (by omega)]
    simp only [hf2, he2]
    rw [show (1 - 1 : Nat) = 0 from rfl]
    rfl
  · rw [deficitPool, if_neg (by omega)]
    simp only [hf1, he1]
    rw [show (1 - 1 : Nat) = 0 from rfl]
    exact deficitPool_zero _ _

theorem pool_pair_facts (p : StudentProfile) (code : String) (i1 i2 : Val)
    (hids : (poolGet (fallback_by_riasec p) code).map (fun c => objGet c "id") = [i1, i2])
    (hins : (poolGet (fallback_by_riasec p) code).map
      (fun c => objInsert c "id" (objGet c "id")) = poolGet (fallback_by_riasec p) code) :
    ∃ c1 c2, poolGet (fallback_by_riasec p) code = [c1, c2] ∧
      objGet c1 "id" = i1 ∧ objGet c2 "id" = i2 ∧
      objInsert c1 "id" i1 = c1 ∧ objInsert c2 "id" i2 = c2 := by
  have hlen : (poolGet (fallback_by_riasec p) code).length = 2 := by
    have := congrArg List.length hids
    simpa using this
  obtain ⟨c1, c2, hpl⟩ := List.length_eq_two.mp hlen
  rw [hpl] at hids hins
  simp only [List.map_cons, List.map_nil, List.cons.injEq, and_true] at hids hins
  obtain ⟨ha, hb⟩ := hids
  obtain ⟨hc, hd⟩ := hins
  rw [ha] at hc
  rw [hb] at hd
  exact ⟨c1, c2, hpl, ha, hb, hc, hd⟩

/-- C5 (amended): with a candidate list of three `R`-tagged records with
unique ids `r-a, r-b, r-c` and the default quota (`R: 2`), exactly the
first two appear in the allocator's output, in their original relative
order, followed by the eight fallback questions; the third is cut by the
primary-fill slice (`buckets["R"][:2]`) and never enters the selection.
The trim step does not fire: the selection reaching it already has exactly
10 items, `r-c` is not among them, and the trim step returns the selection
unchanged. -/
theorem enforce_three_R_scenario (p : StudentProfile) (q1 q2 q3 : Obj)
    (ht1 : extract_riasec_primary (objGet q1 "tags") = some "R")
    (ht2 : extract_riasec_primary (objGet q2 "tags") = some "R")
    (ht3 : extract_riasec_primary (objGet q3 "tags") = some "R")
    (hid1 : objGetOpt q1 "id" = some (Val.str "r-a"))
    (hid2 : objGetOpt q2 "id" = some (Val.str "r-b"))
    (_hid3 : objGetOpt q3 "id" = some (Val.str "r-c")) :
    (enforce_riasec_distribution [q1, q2, q3] RIASEC_COVERAGE_REQUIRED p).map
        (fun q => objGet q "id") =
      [Val.str "r-a", Val.str "r-b", Val.str "I1", Val.str "I2", Val.str "A1",
       Val.str "A2", Val.str "S1", Val.str "S2", Val.str "E1", Val.str "C1"] ∧
    trimSurplus RIASEC_COVERAGE_REQUIRED 10
        (deficitFill RIASEC_COVERAGE_REQUIRED (fallback_by_riasec p)
          (primaryFill RIASEC_COVERAGE_REQUIRED [q1, q2, q3])).1 =
      (deficitFill RIASEC_COVERAGE_REQUIRED (fallback_by_riasec p)
        (primaryFill RIASEC_COVERAGE_REQUIRED [q1, q2, q3])).1 ∧
    Val.str "r-c" ∉ ((deficitFill RIASEC_COVERAGE_REQUIRED (fallback_by_riasec p)
        (primaryFill RIASEC_COVERAGE_REQUIRED [q1, q2, q3])).1.map
          (fun q => objGet q "id")) := by
  have hg1 : objGet q1 "id" = Val.str "r-a" := by rw [objGet, hid1]; rfl
  have hg2 : objGet q2 "id" = Val.str "r-b" := by rw [objGet, hid2]; rfl
  have hg1d : objGetD q1 "id" (Val.str "") = Val.str "r-a" := by rw [objGetD, hid1]; rfl
  have hg2d : objGetD q2 "id" (Val.str "") = Val.str "r-b" := by rw [objGetD, hid2]; rfl
  have hbR : bucketOf [q1, q2, q3] "R" = [q1, q2, q3] := by
    simp [bucketOf, List.filter_cons, ht1, ht2, ht3]
  have hbI : bucketOf [q1, q2, q3] "I" = [] := by
    simp [bucketOf, List.filter_cons, ht1, ht2, ht3]
  have hbA : bucketOf [q1, q2, q3] "A" = [] := by
    simp [bucketOf, List.filter_cons, ht1, ht2, ht3]
  have hbS : bucketOf [q1, q2, q3] "S" = [] := by
    simp [bucketOf, List.filter_cons, ht1, ht2, ht3]
  have hbE : bucketOf [q1, q2, q3] "E" = [] := by
    simp [bucketOf, List.filter_cons, ht1, ht2, ht3]
  have hbC : bucketOf [q1, q2, q3] "C" = [] := by
    simp [bucketOf, List.filter_cons, ht1, ht2, ht3]
  have hpf : primaryFill RIASEC_COVERAGE_REQUIRED [q1, q2, q3] =
      ([q1, q2], [Val.str "r-a", Val.str "r-b"]) := by
    simp only [primaryFill, RIASEC_COVERAGE_REQUIRED, List.foldl_cons, List.foldl_nil]
    rw [hbR, hbI, hbA, hbS, hbE, hbC]
    simp [takeLoop, hg1, hg2, hg1d, hg2d]
  obtain ⟨cI1, cI2, hplI, hiI1, hiI2, heI1, heI2⟩ :=
    pool_pair_facts p "I" (Val.str "I1") (Val.str "I2") rfl rfl
  obtain ⟨cA1, cA2, hplA, hiA1, hiA2, heA1, heA2⟩ :=
    pool_pair_facts p "A" (Val.str "A1") (Val.str "A2") rfl rfl
  obtain ⟨cS1, cS2, hplS, hiS1, hiS2, heS1, heS2⟩ :=
    pool_pair_facts p "S" (Val.str "S1") (Val.str "S2") rfl rfl
  obtain ⟨cE1, cE2, hplE, hiE1, hiE2, heE1, heE2⟩ :=
    pool_pair_facts p "E" (Val.str "E1") (Val.str "E2") rfl rfl
  obtain ⟨cC1, cC2, hplC, hiC1, hiC2, heC1, heC2⟩ :=
    pool_pair_facts p "C" (Val.str "C1") (Val.str "C2") rfl rfl
  have htI1 : extract_riasec_primary (objGet cI1 "tags") = some "I" :=
    (pool_spec p "I" (by decide)).2 cI1 (by rw [hplI]; simp)
  have htI2 : extract_riasec_primary (objGet cI2 "tags") = some "I" :=
    (pool_spec p "I" (by decide)).2 cI2 (by rw [hplI]; simp)
  have htA1 : extract_riasec_primary (objGet cA1 "tags") = some "A" :=
    (pool_spec p "A" (by decide)).2 cA1 (by rw [hplA]; simp)
  have htA2 : extract_riasec_primary (objGet cA2 "tags") = some "A" :=
    (pool_spec p "A" (by decide)).2 cA2 (by rw [hplA]; simp)
  have htS1 : extract_riasec_primary (objGet cS1 "tags") = some "S" :=
    (pool_spec p "S" (by decide)).2 cS1 (by rw [hplS]; simp)
  have htS2 : extract_riasec_primary (objGet cS2 "tags") = some "S" :=
    (pool_spec p "S" (by decide)).2 cS2 (by rw [hplS]; simp)
  have htE1 : extract_riasec_primary (objGet cE1 "tags") = some "E" :=
    (pool_spec p "E" (by decide)).2 cE1 (by rw [hplE]; simp)
  have htC1 : extract_riasec_primary (objGet cC1 "tags") = some "C" :=
    (pool_spec p "C" (by decide)).2 cC1 (by rw [hplC]; simp)
  have hcR0 : countC [q1, q2] "R" = 2 := by
    simp [countC_cons, countC_nil, ht1, ht2]
  have hcI0 : countC [q1, q2] "I" = 0 := by
    simp [countC_cons, countC_nil, ht1, ht2]
  have hcA2 : countC (([q1, q2] ++ [cI1]) ++ [cI2]) "A" = 0 := by
    simp [countC_append, countC_cons, countC_nil, ht1, ht2, htI1, htI2]
  have hcS4 : countC (((([q1, q2] ++ [cI1]) ++ [cI2]) ++ [cA1]) ++ [cA2]) "S" = 0 := by
    simp [countC_append, countC_cons, countC_nil, ht1, ht2, htI1, htI2, htA1, htA2]
  have hcE6 : countC (((((([q1, q2] ++ [cI1]) ++ [cI2]) ++ [cA1]) ++ [cA2]) ++ [cS1]) ++ [cS2])
      "E" = 0 := by
    simp [countC_append, countC_cons, countC_nil, ht1, ht2, htI1, htI2, htA1, htA2, htS1, htS2]
  have hcC7 : countC ((((((([q1, q2] ++ [cI1]) ++ [cI2]) ++ [cA1]) ++ [cA2]) ++ [cS1]) ++ [cS2])
      ++ [cE1]) "C" = 0 := by
    simp [countC_append, countC_cons, countC_nil, ht1, ht2, htI1, htI2, htA1, htA2, htS1,
      htS2, htE1]
  have hd : deficitFill RIASEC_COVERAGE_REQUIRED (fallback_by_riasec p)
      ([q1, q2], [Val.str "r-a", Val.str "r-b"]) =
      ((((((((([q1, q2] ++ [cI1]) ++ [cI2]) ++ [cA1]) ++ [cA2]) ++ [cS1]) ++ [cS2]) ++ [cE1])
        ++ [cC1]),
       (((((((([Val.str "r-a", Val.str "r-b"] ++ [Val.str "I1"]) ++ [Val.str "I2"])
         ++ [Val.str "A1"]) ++ [Val.str "A2"]) ++ [Val.str "S1"]) ++ [Val.str "S2"])
         ++ [Val.str "E1"]) ++ [Val.str "C1"])) := by
    simp only [deficitFill, RIASEC_COVERAGE_REQUIRED, List.foldl_cons, List.foldl_nil]
    rw [hcR0, show (2 - 2 : Nat) = 0 from rfl, deficitPool_zero]
    rw [hcI0, show (2 - 0 : Nat) = 2 from rfl, hplI,
      (deficitPool_pair cI1 cI2 (Val.str "I1") (Val.str "I2") [q1, q2]
        [Val.str "r-a", Val.str "r-b"] hiI1 hiI2 heI1 heI2 (by decide) (by decide)).1]
    rw [hcA2, show (2 - 0 : Nat) = 2 from rfl, hplA,
      (deficitPool_pair cA1 cA2 (Val.str "A1") (Val.str "A2") _ _ hiA1 hiA2 heA1 heA2
        (by decide) (by decide)).1]
    rw [hcS4, show (2 - 0 : Nat) = 2 from rfl, hplS,
      (deficitPool_pair cS1 cS2 (Val.str "S1") (Val.str "S2") _ _ hiS1 hiS2 heS1 heS2
        (by decide) (by decide)).1]
    rw [hcE6, show (1 - 0 : Nat) = 1 from rfl, hplE,
      (deficitPool_pair cE1 cE2 (Val.str "E1") (Val.str "E2") _ _ hiE1 hiE2 heE1 heE2
        (by decide) (by decide)).2]
    rw [hcC7, show (1 - 0 : Nat) = 1 from rfl, hplC,
      (deficitPool_pair cC1 cC2 (Val.str "C1") (Val.str "C2") _ _ hiC1 hiC2 heC1 heC2
        (by decide) (by decide)).2]
  have hids : ((deficitFill RIASEC_COVERAGE_REQUIRED (fallback_by_riasec p)
      (primaryFill RIASEC_COVERAGE_REQUIRED [q1, q2, q3])).1.map (fun q => objGet q "id")) =
      [Val.str "r-a", Val.str "r-b", Val.str "I1", Val.str "I2", Val.str "A1",
       Val.str "A2", Val.str "S1", Val.str "S2", Val.str "E1", Val.str "C1"] := by
    rw [hpf, hd]
    simp [hg1, hg2, hiI1, hiI2, hiA1, hiA2, hiS1, hiS2, hiE1, hiC1]
  have hlen10 : (deficitFill RIASEC_COVERAGE_REQUIRED (fallback_by_riasec p)
      (primaryFill RIASEC_COVERAGE_REQUIRED [q1, q2, q3])).1.length = 10 := by
    have := congrArg List.length hids
    simpa using this
  refine ⟨?_, ?_, ?_⟩
  · simp only [enforce_riasec_distribution]
    have htot : ((RIASEC_COVERAGE_REQUIRED.map (fun cn => cn.2)).sum) = 10 := by decide
    rw [htot]
    rw [topUpWhile_eq_of_ge _ _ _ _ (by rw [hlen10]; omega),
      trimSurplus_eq_of_le _ _ _ (by rw [hlen10]; omega)]
    rw [List.map_take, ids_map_sanitize, hids]
    rfl
  · exact trimSurplus_eq_of_le _ _ _ (by rw [hlen10]; omega)
  · rw [hids]
    decide

/-- Witness for C5 at three concrete `R`-tagged candidates and an empty
profile. -/
theorem enforce_three_R_scenario_witness :
    (enforce_riasec_distribution
        [[("id", Val.str "r-a"), ("tags", Val.list [Val.str "R"])],
         [("id", Val.str "r-b"), ("tags", Val.list [Val.str "R"])],
         [("id", Val.str "r-c"), ("tags", Val.list [Val.str "R"])]]
        RIASEC_COVERAGE_REQUIRED ⟨Val.none, Val.none, []⟩).map
        (fun q => objGet q "id") =
      [Val.str "r-a", Val.str "r-b", Val.str "I1", Val.str "I2", Val.str "A1",
       Val.str "A2", Val.str "S1", Val.str "S2", Val.str "E1", Val.str "C1"] :=
  (enforce_three_R_scenario ⟨Val.none, Val.none, []⟩
    [("id", Val.str "r-a"), ("tags", Val.list [Val.str "R"])]
    [("id", Val.str "r-b"), ("tags", Val.list [Val.str "R"])]
    [("id", Val.str "r-c"), ("tags", Val.list [Val.str "R"])]
    (by decide) (by decide) (by decide) rfl rfl rfl).1

/-- C5 counterexample: on the three-`R` scenario the surplus-trim step is a
no-op — the selection reaching it already has exactly 10 items and does not
contain `r-c`; indeed `r-c` is already absent from the primary-fill result,
so the third candidate is cut by the `buckets["R"][:2]` slice, not dropped
by the trim step. -/
theorem trim_does_not_drop_third_R :
    trimSurplus RIASEC_COVERAGE_REQUIRED 10
        (deficitFill RIASEC_COVERAGE_REQUIRED
          (fallback_by_riasec ⟨Val.none, Val.none, []⟩)
          (primaryFill RIASEC_COVERAGE_REQUIRED
            [[("id", Val.str "r-a"), ("tags", Val.list [Val.str "R"])],
             [("id", Val.str "r-b"), ("tags", Val.list [Val.str "R"])],
             [("id", Val.str "r-c"), ("tags", Val.list [Val.str "R"])]])).1 =
      (deficitFill RIASEC_COVERAGE_REQUIRED
          (fallback_by_riasec ⟨Val.none, Val.none, []⟩)
          (primaryFill RIASEC_COVERAGE_REQUIRED
            [[("id", Val.str "r-a"), ("tags", Val.list [Val.str "R"])],
             [("id", Val.str "r-b"), ("tags", Val.list [Val.str "R"])],
             [("id", Val.str "r-c"), ("tags", Val.list [Val.str "R"])]])).1 ∧
    Val.str "r-c" ∉ ((primaryFill RIASEC_COVERAGE_REQUIRED
        [[("id", Val.str "r-a"), ("tags", Val.list [Val.str "R"])],
         [("id", Val.str "r-b"), ("tags", Val.list [Val.str "R"])],
         [("id", Val.str "r-c"), ("tags", Val.list [Val.str "R"])]]).1.map
          (fun q => objGet q "id")) := by
  constructor
  · decide
  · decide

/-! ### Pipeline (parse-failure path) lemmas -/

theorem step1_nomatch_eq_fallback (p : StudentProfile) :
    step1_nomatch_pre_shuffle p = step1_fallback_pre_shuffle p := rfl

theorem primaryFill_nil :
    primaryFill RIASEC_COVERAGE_REQUIRED [] = ([], []) := rfl

theorem sanitizeQuestion_prompt (q : Obj) :
    objGetOpt (sanitizeQuestion q) "prompt" =
      some (Val.str (pyStrip (pyStr (pyOr (objGet q "prompt")
        (pyOr (objGet q "question") (Val.str "")))))) := by
  simp only [sanitizeQuestion]
  rw [objGetOpt_objInsert_ne _ _ _ _ (by decide)]
  split
  · exact objGetOpt_objInsert_self _ _ _
  · rw [objGetOpt_objErase_ne _ _ _ (by decide)]
    exact objGetOpt_objInsert_self _ _ _
  · exact objGetOpt_objInsert_self _ _ _

theorem pyStrip_prefixed_ne_empty (a m b : String) (c : Char) (hc : c ∈ a.data)
    (hpc : isPySpace c = false) : pyStrip (a ++ m ++ b) ≠ "" := by
  refine pyStrip_ne_empty_of_mem ?_ hpc
  show c ∈ a.data ++ m.data ++ b.data
  exact List.mem_append_left _ (List.mem_append_left _ hc)

theorem pool_prompt_spec (p : StudentProfile) :
    ∀ code ∈ (["R", "I", "A", "S", "E", "C"] : List String),
      ∀ c ∈ poolGet (fallback_by_riasec p) code,
        ∃ s, objGet c "prompt" = Val.str s ∧ s ≠ "" ∧ pyStrip s ≠ "" := by
  intro code hcode
  fin_cases hcode <;>
  · intro c hc
    simp [poolGet, fallback_by_riasec, List.find?] at hc
    rcases hc with rfl | rfl
    all_goals first
      | exact ⟨_, rfl, by decide, by decide⟩
      | refine ⟨_, rfl,
          string_append_left_ne_empty _ _ (string_append_left_ne_empty _ _ (by decide)), ?_⟩
        first
          | exact pyStrip_prefixed_ne_empty _ _ _ (Char.ofNat 89) (by decide) (by decide)
          | exact pyStrip_prefixed_ne_empty _ _ _ (Char.ofNat 73) (by decide) (by decide)

theorem countC_perm {l1 l2 : List Obj} (h : l1.Perm l2) (c : String) :
    countC l1 c = countC l2 c := by
  simp only [countC]
  exact (h.filter _).length_eq

theorem countC_resequenceFrom : ∀ (qs : List Obj) (i : Nat) (c : String),
    countC (resequenceFrom i qs) c = countC qs c := by
  intro qs
  induction qs with
  | nil => intro i c; rfl
  | cons q rest ih =>
    intro i c
    rw [resequenceFrom, countC_cons, countC_cons, ih,
      objGet_objInsert_ne _ _ _ _ (by decide)]

theorem resequenceFrom_mem : ∀ (qs : List Obj) (i : Nat), ∀ q ∈ resequenceFrom i qs,
    ∃ q0 ∈ qs, ∃ v, q = objInsert q0 "id" v := by
  intro qs
  induction qs with
  | nil => intro i q hq; cases hq
  | cons x rest ih =>
    intro i q hq
    rw [resequenceFrom] at hq
    rcases List.mem_cons.mp hq with rfl | hq2
    · exact ⟨x, by simp, _, rfl⟩
    · obtain ⟨q0, h0, v, hv⟩ := ih (i + 1) q hq2
      exact ⟨q0, by simp [h0], v, hv⟩

/-- A fully-populated question record: a non-empty prompt string and an
`options` field holding exactly 4 well-formed option records. -/
def Populated (q : Obj) : Prop :=
  (∃ s, objGetOpt q "prompt" = some (Val.str s) ∧ s ≠ "") ∧
  (∃ os : List Obj, objGet q "options" = Val.list (os.map Val.dict) ∧ os.length = 4 ∧
    ∀ o ∈ os, OptShape o)

theorem populated_objInsert_id (q : Obj) (v : Val) (h : Populated q) :
    Populated (objInsert q "id" v) := by
  obtain ⟨⟨s, hs, hne⟩, ⟨os, ho, h4, hsh⟩⟩ := h
  refine ⟨⟨s, ?_, hne⟩, ⟨os, ?_, h4, hsh⟩⟩
  · rw [objGetOpt_objInsert_ne _ _ _ _ (by decide), hs]
  · rw [objGet_objInsert_ne _ _ _ _ (by decide), ho]

theorem enforce_nil_populated (p : StudentProfile) :
    ∀ q ∈ enforce_riasec_distribution [] RIASEC_COVERAGE_REQUIRED p, Populated q := by
  obtain ⟨ex, heq, hprov, _, _, _, _, _, _, _, _⟩ := enforce_main [] p
  rw [heq, primaryFill_nil]
  intro q hq
  simp only [List.nil_append] at hq
  obtain ⟨q0, hq0, rfl⟩ := List.mem_map.mp hq
  obtain ⟨code, hcode, c, hc, v, rfl⟩ := hprov q0 hq0
  obtain ⟨s, hps, hne, hstrip⟩ := pool_prompt_spec p code hcode c hc
  constructor
  · refine ⟨pyStrip s, ?_, hstrip⟩
    rw [sanitizeQuestion_prompt, objGet_objInsert_ne _ _ _ _ (by decide), hps]
    have htr : truthy (Val.str s) = true := by simp [truthy, hne]
    rw [pyOr, if_pos htr]
    rfl
  · obtain ⟨w, hw⟩ := sanitizeQuestion_options (objInsert c "id" v)
    exact ⟨sanitize_options w, by rw [hw], sanitize_options_length w,
      sanitize_options_shape w⟩

/-- C2: on any parse failure of the model text — the brace regex finds no
match (`data = {"questions": []}`) or `json.loads` raises and control lands
in the `except` branch — the entry point still runs the full pipeline and,
for every shuffle outcome, returns a 10-item question list meeting the
quota table, each item carrying a non-empty prompt and exactly 4 well-formed
options. -/
theorem generate_step1_questions_parse_failure (p : StudentProfile)
    (shuffled : List Obj)
    (hperm : shuffled.Perm (step1_nomatch_pre_shuffle p) ∨
      shuffled.Perm (step1_fallback_pre_shuffle p)) :
    (step1_finalize shuffled).length = 10 ∧
    (∀ cn ∈ RIASEC_COVERAGE_REQUIRED, countC (step1_finalize shuffled) cn.1 = cn.2) ∧
    (∀ q ∈ step1_finalize shuffled, Populated q) := by
  have hp : shuffled.Perm (enforce_riasec_distribution [] RIASEC_COVERAGE_REQUIRED p) := by
    rcases hperm with h | h
    · exact h
    · exact h
  obtain ⟨ex, heq, _, cR, cI, cA, cS, cE, cC, hlen, _⟩ := enforce_main [] p
  have hElen : (enforce_riasec_distribution [] RIASEC_COVERAGE_REQUIRED p).length = 10 := by
    rw [heq, List.length_map, hlen]
  have hslen : shuffled.length = 10 := by rw [hp.length_eq, hElen]
  have htake : shuffled.take 10 = shuffled := List.take_of_length_le (by omega)
  have hfin : step1_finalize shuffled = resequenceFrom 1 shuffled := by
    rw [step1_finalize, htake]; rfl
  refine ⟨?_, ?_, ?_⟩
  · rw [hfin, resequenceFrom_length, hslen]
  · intro cn hcn
    rw [hfin, countC_resequenceFrom, countC_perm hp, heq]
    fin_cases hcn
    · simpa only [countC_map_sanitize] using cR
    · simpa only [countC_map_sanitize] using cI
    · simpa only [countC_map_sanitize] using cA
    · simpa only [countC_map_sanitize] using cS
    · simpa only [countC_map_sanitize] using cE
    · simpa only [countC_map_sanitize] using cC
  · intro q hq
    rw [hfin] at hq
    obtain ⟨q0, h0, v, rfl⟩ := resequenceFrom_mem shuffled 1 q hq
    exact populated_objInsert_id _ _ (enforce_nil_populated p q0 (hp.subset h0))

/-- Witness for C2: the identity shuffle of the `except`-branch list, at an
empty profile. -/
theorem generate_step1_questions_parse_failure_witness :
    (step1_finalize (step1_fallback_pre_shuffle ⟨Val.none, Val.none, []⟩)).length = 10 ∧
    countC (step1_finalize (step1_fallback_pre_shuffle ⟨Val.none, Val.none, []⟩)) "R" = 2 := by
  have h := generate_step1_questions_parse_failure ⟨Val.none, Val.none, []⟩
    (step1_fallback_pre_shuffle ⟨Val.none, Val.none, []⟩) (Or.inr (List.Perm.refl _))
  exact ⟨h.1, h.2.1 ("R", 2) (by decide)⟩
